import Mathlib

/-!
# Request validation of the SMS gateway API

A shallow embedding of `api/pkg/validators/message_handler_validator.go`.

The five `Validate*` methods only build a rule table and hand it to
`govalidator.New(...).ValidateStruct()`.  The rule tables and the custom messages below are
the string literals of the Go file.  The rule engine they are handed to is the library
`github.com/thedevsaddam/govalidator` (`validator.go`, `rules.go`, `regex_patterns.go`,
`helper.go`, `utils.go`); the part of it that the seven rules of this file reach is embedded
here, function by function, for values of kind `string`.

A result `none` stands for a Go panic; `url.Values` is an association list.
-/

namespace Validators

/-! ## Go strings and `url.Values` -/

/-- Go `len(s)` of a string: the number of bytes of its UTF-8 encoding. -/
def goLen (s : String) : Nat := s.utf8ByteSize

/-- Go `strings.HasPrefix(s, p)`. -/
def hasPrefixStr (s p : String) : Bool := p.data.isPrefixOf s.data

/-- Go `strings.TrimPrefix(s, p)`. -/
def trimPrefixStr (s p : String) : String :=
  if hasPrefixStr s p then String.mk (s.data.drop p.data.length) else s

/-- The pieces of a character list between the occurrences of `sep`. -/
def splitChars (sep : Char) : List Char → List (List Char)
  | [] => [[]]
  | c :: cs =>
    match splitChars sep cs with
    | [] => [[]]
    | w :: ws => if c = sep then [] :: w :: ws else (c :: w) :: ws

/-- Go `strings.Split(s, sep)` for a one-character separator. -/
def splitStr (s : String) (sep : Char) : List String :=
  (splitChars sep s.data).map String.mk

/-- Go `strings.Join(parts, sep)`. -/
def joinStr (parts : List String) (sep : String) : String :=
  sep.intercalate parts

/-- Go `url.Values`: each key with the list of values added under it. -/
abbrev Values := List (String × List String)

/-- Go `v[key]`: the list under `key`, empty when the key is absent. -/
def Values.get : Values → String → List String
  | [], _ => []
  | (k, ms) :: rest, key => if k = key then ms else Values.get rest key

/-- Go `url.Values.Add`: `v[key] = append(v[key], value)`. -/
def Values.add : Values → String → String → Values
  | [], key, value => [(key, [value])]
  | (k, ms) :: rest, key, value =>
    if k = key then (k, ms ++ [value]) :: rest else (k, ms) :: Values.add rest key value

/-! ## Regular expressions

The three patterns the rules use (`phoneNumberRule`, and the library's `Numeric` and `UUID`)
are anchored sequences of character classes with a repetition count.  `compileRegex` reads
that fragment of the RE2 syntax; `none` is returned for anything else. -/

/-- A character class, as the list of the inclusive ranges it unites. -/
abbrev CharClass := List (Char × Char)

/-- Membership of a character in a class. -/
def CharClass.mem (cls : CharClass) (c : Char) : Bool :=
  cls.any fun r => decide (r.1 ≤ c) && decide (c ≤ r.2)

/-- One item of a pattern: a class repeated between `lo` and `hi` times (`none`: no bound). -/
structure Atom where
  cls : CharClass
  lo : Nat
  hi : Option Nat
deriving DecidableEq, Repr

/-- An anchored pattern `^a₁a₂…aₙ$`. -/
abbrev Pattern := List Atom

/-- Decimal value of a list of ASCII digits, `none` when the list is empty or holds another
character. -/
def digitsValue (cs : List Char) : Option Nat :=
  if cs.isEmpty then none
  else cs.foldl (fun acc c =>
    match acc with
    | none => none
    | some n => if '0' ≤ c ∧ c ≤ '9' then some (10 * n + (c.toNat - 48)) else none) (some 0)

/-- The ranges of the body of a bracket expression: `a-b` is a range, any other character
stands for itself. -/
def classItems : List Char → CharClass
  | [] => []
  | a :: '-' :: b :: rest => (a, b) :: classItems rest
  | a :: rest => (a, a) :: classItems rest

/-- The class of a bracket expression after `[`, and what follows the closing `]`.  Negated
classes, escapes and nested brackets are outside the fragment. -/
def parseClass (cs : List Char) : Option (CharClass × List Char) :=
  let body := cs.takeWhile (· ≠ ']')
  match cs.dropWhile (· ≠ ']') with
  | [] => none
  | _ :: tail =>
    if body.isEmpty ∨ body.head? = some '^' ∨ '\\' ∈ body ∨ '[' ∈ body then none
    else some (classItems body, tail)

/-- One class at the head of a pattern: a bracket expression, `\d`, an escaped punctuation
character or a literal character. -/
def parseItem : List Char → Option (CharClass × List Char)
  | [] => none
  | '[' :: rest => parseClass rest
  | '\\' :: 'd' :: rest => some ([('0', '9')], rest)
  | '\\' :: c :: rest =>
    if c.isAlphanum then none else some ([(c, c)], rest)
  | c :: rest =>
    if c ∈ ['.', '(', ')', '|', '*', '+', '?', '{', '}', ']', '^', '$', '\\'] then none
    else some ([(c, c)], rest)

/-- The repetition operator after a class: `?`, `+`, `*`, `{m}`, `{m,}`, `{m,n}` or none. -/
def parseQuant : List Char → Option (Nat × Option Nat × List Char)
  | '?' :: rest => some (0, some 1, rest)
  | '+' :: rest => some (1, none, rest)
  | '*' :: rest => some (0, none, rest)
  | '{' :: rest =>
    let body := rest.takeWhile (· ≠ '}')
    match rest.dropWhile (· ≠ '}') with
    | [] => none
    | _ :: tail =>
      match splitChars ',' body with
      | [m] =>
        match digitsValue m with
        | some lo => some (lo, some lo, tail)
        | none => none
      | [m, n] =>
        match digitsValue m with
        | none => none
        | some lo =>
          if n.isEmpty then some (lo, none, tail)
          else
            match digitsValue n with
            | some hi => if lo ≤ hi then some (lo, some hi, tail) else none
            | none => none
      | _ => none
  | rest => some (1, some 1, rest)

/-- The items of a pattern up to its closing `$`. -/
def parseAtoms : Nat → List Char → Option Pattern
  | 0, _ => none
  | _ + 1, [] => none
  | fuel + 1, c :: cs =>
    if c = '$' ∧ cs = [] then some []
    else
      match parseItem (c :: cs) with
      | none => none
      | some (cls, rest) =>
        match parseQuant rest with
        | none => none
        | some (lo, hi, rest2) =>
          match parseAtoms fuel rest2 with
          | none => none
          | some atoms => some ({ cls := cls, lo := lo, hi := hi } :: atoms)

/-- Go `regexp.Compile` on the anchored fragment: `none` when the text is not of the form
`^…$` over the items above. -/
def compileRegex (rx : String) : Option Pattern :=
  match rx.data with
  | '^' :: cs => parseAtoms (cs.length + 1) cs
  | _ => none

/-- Repetitions of one class: `n` characters of the class have been read; either stop (when
`lo ≤ n`) and hand the remaining input to `k`, or read one more character of the class (when
`n` is below `hi`). -/
def matchRep (cls : CharClass) (lo : Nat) (hi : Option Nat) (k : List Char → Bool) :
    Nat → List Char → Bool
  | n, [] => decide (lo ≤ n) && k []
  | n, c :: cs =>
    (decide (lo ≤ n) && k (c :: cs)) ||
      (cls.mem c && (match hi with | none => true | some h => decide (n < h))
        && matchRep cls lo hi k (n + 1) cs)

/-- Whether the whole input matches the anchored pattern. -/
def matchAtoms : Pattern → List Char → Bool
  | [] => fun s => s.isEmpty
  | a :: rest => matchRep a.cls a.lo a.hi (matchAtoms rest) 0

/-- Go `regexp.MustCompile(rxStr).Match([]byte(str))` (library `isMatchedRegex`); `none`
when the pattern does not compile. -/
def isMatchedRegex (rxStr str : String) : Option Bool :=
  match compileRegex rxStr with
  | none => none
  | some p => some (matchAtoms p str.data)

/-! ## The rule engine

`github.com/thedevsaddam/govalidator`, for the rules `required`, `regex`, `min`, `max`,
`numeric`, `in` and `uuid` and for field values that are Go strings.  A field value is
`none` when the struct has no field with that tag (Go `nil`). -/

/-- Library `regex_patterns.go`, constant `Numeric`. -/
def Numeric : String := "^-?[0-9]+$"

/-- Library `regex_patterns.go`, constant `UUID`. -/
def UUID : String :=
  "^[a-f0-9]{8}-[a-f0-9]{4}-4[a-f0-9]{3}-[89aAbB][a-f0-9]{3}-[a-f0-9]{12}$"

/-- Go `strconv.Atoi`: an optional sign and decimal digits, within the range of a 64-bit
`int`. -/
def atoi (s : String) : Option Int :=
  let signed : Option Int :=
    match s.data with
    | '-' :: ds => (digitsValue ds).map fun n => -(n : Int)
    | '+' :: ds => (digitsValue ds).map fun n => (n : Int)
    | ds => (digitsValue ds).map fun n => (n : Int)
  match signed with
  | some v => if -(2 ^ 63) ≤ v ∧ v < 2 ^ 63 then some v else none
  | none => none

/-- Library `toString`: the value itself for a string, `fmt.Sprintf("%v", v)` otherwise. -/
def toStr (value : Option String) : String :=
  match value with
  | some s => s
  | none => "<nil>"

/-- The error a rule reports: the custom message when there is one, else the default. -/
def errorText (message dflt : String) : String :=
  if message ≠ "" then message else dflt

/-- A rule function of `rulesFuncMap`: field, rule, custom message and value to an optional
error; the outer `none` is a panic. -/
abbrev RuleFunc := String → String → String → Option String → Option (Option String)

/-- Rule `required`: a `nil` value and a string of length zero are rejected. -/
def ruleRequired : RuleFunc := fun field _ message value =>
  let err := errorText message ("The " ++ field ++ " field is required")
  match value with
  | none => some (some err)
  | some s => if goLen s = 0 then some (some err) else some none

/-- Rule `regex`: the text after `regex:` is compiled and matched against the value. -/
def ruleRegex : RuleFunc := fun field rule message value =>
  let err := errorText message ("The " ++ field ++ " field format is invalid")
  match isMatchedRegex (trimPrefixStr rule "regex:") (toStr value) with
  | none => none
  | some true => some none
  | some false => some (some err)

/-- Rule `min`: the parameter must parse (`strconv.Atoi`, else panic; `strconv.ParseFloat`
of a text that `Atoi` reads succeeds too); for a value of kind string the rule compares
`rv.Len()`, the length of the string, with it, and for `nil` it reports nothing. -/
def ruleMin : RuleFunc := fun field rule message value =>
  match atoi (trimPrefixStr rule "min:") with
  | none => none
  | some lenInt =>
    match value with
    | none => some none
    | some s =>
      if (goLen s : Int) < lenInt then
        some (some (errorText message
          ("The " ++ field ++ " field must be minimum " ++ toString lenInt ++ " char")))
      else some none

/-- Rule `max`: as `min`, rejecting a string longer than the parameter. -/
def ruleMax : RuleFunc := fun field rule message value =>
  match atoi (trimPrefixStr rule "max:") with
  | none => none
  | some lenInt =>
    match value with
    | none => some none
    | some s =>
      if (goLen s : Int) > lenInt then
        some (some (errorText message
          ("The " ++ field ++ " field must be maximum " ++ toString lenInt ++ " char")))
      else some none

/-- Rule `numeric`: the value as a string must match `Numeric`. -/
def ruleNumeric : RuleFunc := fun field _ message value =>
  let err := errorText message ("The " ++ field ++ " field must be numeric")
  match isMatchedRegex Numeric (toStr value) with
  | none => none
  | some true => some none
  | some false => some (some err)

/-- Library `isIn`. -/
def isIn (haystack : List String) (needle : String) : Bool :=
  haystack.any fun h => h = needle

/-- Rule `in`: the text after `in:` is split at the commas and the value must be one of the
pieces. -/
def ruleIn : RuleFunc := fun field rule message value =>
  let rng := splitStr (trimPrefixStr rule "in:") ','
  let err := errorText message
    ("The " ++ field ++ " field must be one of " ++ joinStr rng ", ")
  if rng.length = 0 then none
  else if isIn rng (toStr value) then some none else some (some err)

/-- Rule `uuid`: the value as a string must match `UUID`. -/
def ruleUUID : RuleFunc := fun field _ message value =>
  let err := errorText message ("The " ++ field ++ " field must contain valid UUID")
  match isMatchedRegex UUID (toStr value) with
  | none => none
  | some true => some none
  | some false => some (some err)

/-- Library `rulesFuncMap`, restricted to the rules the tables of this file name. -/
def rulesFuncMap : List (String × RuleFunc) :=
  [("required", ruleRequired), ("regex", ruleRegex), ("min", ruleMin), ("max", ruleMax),
   ("numeric", ruleNumeric), ("in", ruleIn), ("uuid", ruleUUID)]

/-- The name of a rule: the text before its first colon. -/
def ruleKey (rule : String) : String :=
  if rule.data.contains ':' then (splitStr rule ':').headD "" else rule

/-- Library `isRuleExist`. -/
def isRuleExist (rule : String) : Bool :=
  let name := ruleKey rule
  ["size", "mime", "ext"].contains name || rulesFuncMap.any fun kv => kv.1 = name

/-- Library `validateCustomRules`: the rule function whose key is the rule, or is followed by
a colon at the head of the rule, is run, and its error is added to the bag. -/
def validateCustomRules (field rule message : String) (value : Option String)
    (errsBag : Values) : Option Values :=
  match rulesFuncMap.find? fun kv => kv.1 = rule || hasPrefixStr rule (kv.1 ++ ":") with
  | none => some errsBag
  | some kv =>
    match kv.2 field rule message value with
    | none => none
    | some none => some errsBag
    | some (some err) => some (errsBag.add field err)

/-- Go `govalidator.MapData`: `map[string][]string`, in the order the literal lists it. -/
abbrev MapData := List (String × List String)

/-- Go `m[key]` with its presence flag. -/
def MapData.find : MapData → String → Option (List String)
  | [], _ => none
  | (k, v) :: rest, key => if k = key then some v else MapData.find rest key

/-- Library `getCustomMessage`: the first custom message of the field that starts with the
rule name and a colon, without that start; empty when there is none. -/
def getCustomMessage (messages : MapData) (field rule : String) : String :=
  match messages.find field with
  | none => ""
  | some msgList =>
    match msgList.find? fun m => hasPrefixStr m (ruleKey rule ++ ":") with
    | some m => trimPrefixStr m (ruleKey rule ++ ":")
    | none => ""

/-- The flat map the library's `roller` builds from the struct: tag to field value. -/
abbrev FlatMap := List (String × String)

/-- Library `roller.getFlatVal`. -/
def getFlatVal : FlatMap → String → Option String
  | [], _ => none
  | (k, v) :: rest, key => if k = key then some v else getFlatVal rest key

/-- Library `isEmpty` on a field value: `nil` or the zero value of its type. -/
def isEmpty (value : Option String) : Bool :=
  match value with
  | none => true
  | some s => s = ""

/-- Library `isContainRequiredField`. -/
def isContainRequiredField (rules : List String) : Bool :=
  rules.any fun rule => rule = "required"

/-- Go `govalidator.Options`, with the fields this file sets (`Request` stays `nil`,
`RequiredDefault` false). -/
structure Options where
  Data : FlatMap
  Rules : MapData
  Messages : MapData := []

/-- The inner loop of `internalValidateStruct`: every rule of one field in turn. -/
def validateFieldRules (messages : MapData) (field : String) (value : Option String) :
    List String → Values → Option Values
  | [], errsBag => some errsBag
  | rule :: rest, errsBag =>
    if isRuleExist rule then
      match validateCustomRules field rule (getCustomMessage messages field rule) value
          errsBag with
      | none => none
      | some bag => validateFieldRules messages field value rest bag
    else none

/-- The outer loop of `internalValidateStruct`: a field whose value is empty and whose rules
do not hold `required` is left out (`getNonRequiredJSONFields`); every other field is run
through its rules. -/
def validateFields (opts : Options) : MapData → Values → Option Values
  | [], errsBag => some errsBag
  | (field, rules) :: rest, errsBag =>
    if isEmpty (getFlatVal opts.Data field) && !isContainRequiredField rules then
      validateFields opts rest errsBag
    else
      match validateFieldRules opts.Messages field (getFlatVal opts.Data field) rules
          errsBag with
      | none => none
      | some bag => validateFields opts rest bag

/-- Library `Validator.ValidateStruct`: panics without rules, else runs the rule table. -/
def ValidateStruct (opts : Options) : Option Values :=
  if opts.Rules.length = 0 then none else validateFields opts opts.Rules []

/-! ## The requests and the validator -/

/-- Modelled from the spec: `requests.MessageReceive` is declared outside this file.  It has
the fields the rule table names, `to`, `from` and `content`, each a text under the tag of
the same name. -/
structure MessageReceive where
  From : String
  To : String
  Content : String

/-- Modelled from the spec: `requests.MessageSend`, declared outside this file, "identical
to MessageReceive". -/
structure MessageSend where
  From : String
  To : String
  Content : String

/-- Modelled from the spec: `requests.MessageOutstanding`, declared outside this file.  Its
field `limit` is a text: the spec has it hold non-numeric values, which "must parse as
numbers". -/
structure MessageOutstanding where
  Limit : String

/-- Modelled from the spec: `requests.MessageIndex`, declared outside this file: the fields
`limit`, `skip`, `from`, `query` and `to`, each a text (`limit` and `skip` as in
`MessageOutstanding`). -/
structure MessageIndex where
  Skip : String
  From : String
  To : String
  Query : String
  Limit : String

/-- Modelled from the spec: `requests.MessageEvent`, declared outside this file: the texts
`event_name` and `messageID`. -/
structure MessageEvent where
  EventName : String
  MessageID : String

/-- The flat map of a `MessageReceive`. -/
def MessageReceive.flat (r : MessageReceive) : FlatMap :=
  [("from", r.From), ("to", r.To), ("content", r.Content)]

/-- The flat map of a `MessageSend`. -/
def MessageSend.flat (r : MessageSend) : FlatMap :=
  [("from", r.From), ("to", r.To), ("content", r.Content)]

/-- The flat map of a `MessageOutstanding`. -/
def MessageOutstanding.flat (r : MessageOutstanding) : FlatMap :=
  [("limit", r.Limit)]

/-- The flat map of a `MessageIndex`. -/
def MessageIndex.flat (r : MessageIndex) : FlatMap :=
  [("skip", r.Skip), ("from", r.From), ("to", r.To), ("query", r.Query), ("limit", r.Limit)]

/-- The flat map of a `MessageEvent`. -/
def MessageEvent.flat (r : MessageEvent) : FlatMap :=
  [("event_name", r.EventName), ("messageID", r.MessageID)]

/-- Modelled from the spec: `entities.MessageEventNameSent`, declared outside this file;
the spec names the three literals `sent`, `failed` and `delivered`. -/
def MessageEventNameSent : String := "sent"

/-- Modelled from the spec: `entities.MessageEventNameFailed`. -/
def MessageEventNameFailed : String := "failed"

/-- Modelled from the spec: `entities.MessageEventNameDelivered`. -/
def MessageEventNameDelivered : String := "delivered"

/-- Constant `phoneNumberRule`. -/
def phoneNumberRule : String := "regex:^\\+[1-9]\\d{1,14}$"

/-- Go `MessageHandlerValidator`; the telemetry types are parameters. -/
structure MessageHandlerValidator (Logger Tracer : Type) where
  logger : Logger
  tracer : Tracer

section Validate

variable {Logger Tracer Context : Type}

/-- Go `ValidateMessageReceive`. -/
def ValidateMessageReceive (_ : MessageHandlerValidator Logger Tracer) (_ : Context)
    (request : MessageReceive) : Option Values :=
  ValidateStruct {
    Data := request.flat
    Rules := [
      ("to", ["required", phoneNumberRule]),
      ("from", ["required", phoneNumberRule]),
      ("content", ["required", "min:1", "max:500"])]
    Messages := [
      ("to", ["regex: The 'to' field must be a valid E.164 phone number: https://en.wikipedia.org/wiki/E.164"]),
      ("from", ["regex: The 'from' field must be a valid E.164 phone number: https://en.wikipedia.org/wiki/E.164"])] }

/-- Go `ValidateMessageSend`. -/
def ValidateMessageSend (_ : MessageHandlerValidator Logger Tracer) (_ : Context)
    (request : MessageSend) : Option Values :=
  ValidateStruct {
    Data := request.flat
    Rules := [
      ("to", ["required", phoneNumberRule]),
      ("from", ["required", phoneNumberRule]),
      ("content", ["required", "min:1", "max:500"])]
    Messages := [
      ("to", ["regex: The 'to' field must be a valid E.164 phone number: https://en.wikipedia.org/wiki/E.164"]),
      ("from", ["regex: The 'from' field must be a valid E.164 phone number: https://en.wikipedia.org/wiki/E.164"])] }

/-- Go `ValidateMessageOutstanding`. -/
def ValidateMessageOutstanding (_ : MessageHandlerValidator Logger Tracer) (_ : Context)
    (request : MessageOutstanding) : Option Values :=
  ValidateStruct {
    Data := request.flat
    Rules := [("limit", ["required", "numeric", "min:1", "max:20"])] }

/-- Go `ValidateMessageIndex`. -/
def ValidateMessageIndex (_ : MessageHandlerValidator Logger Tracer) (_ : Context)
    (request : MessageIndex) : Option Values :=
  ValidateStruct {
    Data := request.flat
    Rules := [
      ("limit", ["required", "numeric", "min:1", "max:20"]),
      ("skip", ["required", "numeric", "min:0"]),
      ("from", ["required", "min:1"]),
      ("query", ["max:100"]),
      ("to", ["required", phoneNumberRule])]
    Messages := [
      ("to", ["regex:The 'to' field must be a valid E.164 phone number: https://en.wikipedia.org/wiki/E.164"])] }

/-- Go `ValidateMessageEvent`. -/
def ValidateMessageEvent (_ : MessageHandlerValidator Logger Tracer) (_ : Context)
    (request : MessageEvent) : Option Values :=
  ValidateStruct {
    Data := request.flat
    Rules := [
      ("event_name", ["required",
        "in:" ++ joinStr [MessageEventNameSent, MessageEventNameFailed,
          MessageEventNameDelivered] ","]),
      ("messageID", ["required", "uuid"])] }

end Validate

/-! ## The engine in closed form

Definitions used to state what the engine computes; none of them is part of the program. -/

/-- Every error of a list added to the bag under one field. -/
def addAll (bag : Values) (field : String) (errs : List String) : Values :=
  errs.foldl (fun b e => b.add field e) bag

/-- What one rule reports for a field: `none` for a panic, `some none` for no error. -/
def ruleResult (messages : MapData) (field : String) (value : Option String) (rule : String) :
    Option (Option String) :=
  if isRuleExist rule then
    match rulesFuncMap.find? fun kv => kv.1 = rule || hasPrefixStr rule (kv.1 ++ ":") with
    | none => some none
    | some kv => kv.2 field rule (getCustomMessage messages field rule) value
  else none

/-- The errors the rules of one field report, in the order of the rules. -/
def fieldErrors (messages : MapData) (field : String) (value : Option String) :
    List String → Option (List String)
  | [] => some []
  | rule :: rest =>
    match ruleResult messages field value rule with
    | none => none
    | some e =>
      match fieldErrors messages field value rest with
      | none => none
      | some es => some (e.toList ++ es)

/-- The error list of a rule that rejects under condition `c`. -/
def errIf (c : Prop) [Decidable c] (msg : String) : List String :=
  if c then [msg] else []

/-- What `required` adds for a string value. -/
def requiredErrs (field s : String) : List String :=
  errIf (goLen s = 0) ("The " ++ field ++ " field is required")

/-- What a `regex` rule with compiled pattern `p` and error text `msg` adds. -/
def regexErrs (p : Pattern) (msg s : String) : List String :=
  errIf (matchAtoms p s.data = false) msg

/-- What `min:n` adds for a string value. -/
def minErrs (field : String) (n : Int) (s : String) : List String :=
  errIf ((goLen s : Int) < n)
    ("The " ++ field ++ " field must be minimum " ++ toString n ++ " char")

/-- What `max:n` adds for a string value. -/
def maxErrs (field : String) (n : Int) (s : String) : List String :=
  errIf ((goLen s : Int) > n)
    ("The " ++ field ++ " field must be maximum " ++ toString n ++ " char")

/-- The pattern `phoneNumberRule` compiles to. -/
def phonePattern : Pattern :=
  [⟨[('+', '+')], 1, some 1⟩, ⟨[('1', '9')], 1, some 1⟩, ⟨[('0', '9')], 1, some 14⟩]

/-- The pattern the library's `Numeric` compiles to. -/
def numericPattern : Pattern :=
  [⟨[('-', '-')], 0, some 1⟩, ⟨[('0', '9')], 1, none⟩]

/-- The class `[a-f0-9]`. -/
def hexClass : CharClass := [('a', 'f'), ('0', '9')]

/-- The class `[89aAbB]`. -/
def variantClass : CharClass :=
  [('8', '8'), ('9', '9'), ('a', 'a'), ('A', 'A'), ('b', 'b'), ('B', 'B')]

/-- The pattern the library's `UUID` compiles to. -/
def uuidPattern : Pattern :=
  [⟨hexClass, 8, some 8⟩, ⟨[('-', '-')], 1, some 1⟩, ⟨hexClass, 4, some 4⟩,
   ⟨[('-', '-')], 1, some 1⟩, ⟨[('4', '4')], 1, some 1⟩, ⟨hexClass, 3, some 3⟩,
   ⟨[('-', '-')], 1, some 1⟩, ⟨variantClass, 1, some 1⟩, ⟨hexClass, 3, some 3⟩,
   ⟨[('-', '-')], 1, some 1⟩, ⟨hexClass, 12, some 12⟩]

/-- What `numeric` adds for a string value. -/
def numericErrs (field s : String) : List String :=
  errIf (matchAtoms numericPattern s.data = false) ("The " ++ field ++ " field must be numeric")

/-- What `in:` with the pieces `rng` adds for a string value. -/
def inErrs (field : String) (rng : List String) (s : String) : List String :=
  errIf (isIn rng s = false) ("The " ++ field ++ " field must be one of " ++ joinStr rng ", ")

/-- What `uuid` adds for a string value. -/
def uuidErrs (field s : String) : List String :=
  errIf (matchAtoms uuidPattern s.data = false)
    ("The " ++ field ++ " field must contain valid UUID")

/-- The `Messages` table of `ValidateMessageReceive` and of `ValidateMessageSend`. -/
def receiveMessages : MapData := [
  ("to", ["regex: The 'to' field must be a valid E.164 phone number: https://en.wikipedia.org/wiki/E.164"]),
  ("from", ["regex: The 'from' field must be a valid E.164 phone number: https://en.wikipedia.org/wiki/E.164"])]

/-- The `Messages` table of `ValidateMessageIndex`. -/
def indexMessages : MapData := [
  ("to", ["regex:The 'to' field must be a valid E.164 phone number: https://en.wikipedia.org/wiki/E.164"])]

/-- The text reported for a `to` that fails the pattern in `ValidateMessageReceive` and
`ValidateMessageSend`: the custom message after `regex:`, its leading blank included. -/
def receiveToText : String :=
  " The 'to' field must be a valid E.164 phone number: https://en.wikipedia.org/wiki/E.164"

/-- The text reported for a `from` that fails the pattern in `ValidateMessageReceive` and
`ValidateMessageSend`. -/
def receiveFromText : String :=
  " The 'from' field must be a valid E.164 phone number: https://en.wikipedia.org/wiki/E.164"

/-- The text reported for a `to` that fails the pattern in `ValidateMessageIndex`. -/
def indexToText : String :=
  "The 'to' field must be a valid E.164 phone number: https://en.wikipedia.org/wiki/E.164"

/-- The event names after `in:`. -/
def eventNames : List String := ["sent", "failed", "delivered"]

/-- The errors of a `to` or `from` of `ValidateMessageReceive` and `ValidateMessageSend`. -/
def phoneErrs (field text s : String) : List String :=
  requiredErrs field s ++ regexErrs phonePattern text s

/-- The errors of `content`. -/
def contentErrs (s : String) : List String :=
  requiredErrs "content" s ++ minErrs "content" 1 s ++ maxErrs "content" 500 s

/-- The errors of `limit`. -/
def limitErrs (s : String) : List String :=
  requiredErrs "limit" s ++ numericErrs "limit" s ++ minErrs "limit" 1 s ++ maxErrs "limit" 20 s

/-- The errors of `skip`. -/
def skipErrs (s : String) : List String :=
  requiredErrs "skip" s ++ numericErrs "skip" s ++ minErrs "skip" 0 s

/-- The errors of the `from` of `ValidateMessageIndex`. -/
def indexFromErrs (s : String) : List String :=
  requiredErrs "from" s ++ minErrs "from" 1 s

/-- The errors of `query`. -/
def queryErrs (s : String) : List String :=
  maxErrs "query" 100 s

/-- The errors of `event_name`. -/
def eventNameErrs (s : String) : List String :=
  requiredErrs "event_name" s ++ inErrs "event_name" eventNames s

/-- The errors of `messageID`. -/
def messageIDErrs (s : String) : List String :=
  requiredErrs "messageID" s ++ uuidErrs "messageID" s

/-- The bag `ValidateMessageReceive` and `ValidateMessageSend` return. -/
def receiveBag (toVal fromVal content : String) : Values :=
  addAll (addAll (addAll [] "to" (phoneErrs "to" receiveToText toVal))
    "from" (phoneErrs "from" receiveFromText fromVal)) "content" (contentErrs content)

/-- The bag `ValidateMessageOutstanding` returns. -/
def outstandingBag (limit : String) : Values :=
  addAll [] "limit" (limitErrs limit)

/-- The bag `ValidateMessageIndex` returns. -/
def indexBag (r : MessageIndex) : Values :=
  addAll (addAll (addAll (addAll (addAll [] "limit" (limitErrs r.Limit))
    "skip" (skipErrs r.Skip)) "from" (indexFromErrs r.From)) "query" (queryErrs r.Query))
    "to" (phoneErrs "to" indexToText r.To)

/-- The bag `ValidateMessageEvent` returns. -/
def eventBag (r : MessageEvent) : Values :=
  addAll (addAll [] "event_name" (eventNameErrs r.EventName))
    "messageID" (messageIDErrs r.MessageID)

/-! ## What the rules accept, in words -/

/-- An ASCII decimal digit. -/
def asciiDigit (c : Char) : Bool := decide ('0' ≤ c ∧ c ≤ '9')

/-- A lowercase hexadecimal digit. -/
def lowerHex (c : Char) : Bool := decide ('a' ≤ c ∧ c ≤ 'f') || asciiDigit c

/-- The phone-number format in words: `+`, one digit 1-9, then 1 to 14 decimal digits. -/
def specE164 (s : String) : Bool :=
  match s.data with
  | p :: d :: ds =>
    decide (p = '+') && decide ('1' ≤ d ∧ d ≤ '9') && ds.all asciiDigit &&
      decide (1 ≤ ds.length ∧ ds.length ≤ 14)
  | _ => false

/-- A decimal integer in words: an optional `-` and then one or more decimal digits. -/
def specNumeric (s : String) : Bool :=
  match s.data with
  | c :: ds => if c = '-' then !ds.isEmpty && ds.all asciiDigit else (c :: ds).all asciiDigit
  | [] => false

/-- A text has a shape when it has one character for each predicate of the shape, in
order, each satisfying its predicate. -/
def hasShape : List (Char → Bool) → List Char → Bool
  | [], [] => true
  | p :: ps, c :: cs => p c && hasShape ps cs
  | _, _ => false

/-- What the library's `UUID` pattern accepts, position by position: 8 lowercase hexadecimal
digits, `-`, 4 more, `-`, the digit `4` and 3 more, `-`, one of `8 9 a A b B` and 3 more,
`-`, 12 more. -/
def uuidShape : List (Char → Bool) :=
  List.replicate 8 lowerHex ++ [fun c => decide (c = '-')] ++
  List.replicate 4 lowerHex ++ [fun c => decide (c = '-')] ++
  [fun c => decide (c = '4')] ++ List.replicate 3 lowerHex ++ [fun c => decide (c = '-')] ++
  [fun c => decide (c ∈ ['8', '9', 'a', 'A', 'b', 'B'])] ++ List.replicate 3 lowerHex ++
  [fun c => decide (c = '-')] ++ List.replicate 12 lowerHex

/-- The texts the `uuid` rule accepts, in words. -/
def specUUID (s : String) : Bool := hasShape uuidShape s.data

/-- A hexadecimal digit of either case. -/
def anyHex (c : Char) : Bool :=
  asciiDigit c || decide ('a' ≤ c ∧ c ≤ 'f') || decide ('A' ≤ c ∧ c ≤ 'F')

/-- A well-formed UUID of any version and variant: groups of 8, 4, 4, 4 and 12 hexadecimal
digits of either case, separated by `-`. -/
def specAnyUUID (s : String) : Bool :=
  hasShape (List.replicate 8 anyHex ++ [fun c => decide (c = '-')] ++
    List.replicate 4 anyHex ++ [fun c => decide (c = '-')] ++
    List.replicate 4 anyHex ++ [fun c => decide (c = '-')] ++
    List.replicate 4 anyHex ++ [fun c => decide (c = '-')] ++ List.replicate 12 anyHex) s.data

/-- A shape followed by a continuation on the rest of the text. -/
def hasShapeThen (k : List Char → Bool) : List (Char → Bool) → List Char → Bool
  | [], s => k s
  | p :: ps, c :: cs => p c && hasShapeThen k ps cs
  | _ :: _, [] => false

/-- The shape of a pattern whose items all have a fixed count. -/
def expand (p : Pattern) : List (Char → Bool) :=
  p.flatMap fun a => List.replicate a.lo a.cls.mem

/-- The call returned a mapping with nothing under `key`. -/
def NoErrorUnder (res : Option Values) (key : String) : Prop :=
  ∃ bag, res = some bag ∧ bag.get key = []

/-- The call returned a mapping with at least one message under `key`. -/
def ErrorUnder (res : Option Values) (key : String) : Prop :=
  ∃ bag, res = some bag ∧ bag.get key ≠ []

/-- The call returned a mapping whose messages under `key` are exactly `msgs`. -/
def ErrorsUnder (res : Option Values) (key : String) (msgs : List String) : Prop :=
  ∃ bag, res = some bag ∧ bag.get key = msgs

/-- The `Rules` table of `ValidateMessageReceive` and of `ValidateMessageSend`. -/
def receiveRules : MapData := [
  ("to", ["required", phoneNumberRule]),
  ("from", ["required", phoneNumberRule]),
  ("content", ["required", "min:1", "max:500"])]

/-- The `Rules` table of `ValidateMessageOutstanding`. -/
def outstandingRules : MapData := [("limit", ["required", "numeric", "min:1", "max:20"])]

/-- The `Rules` table of `ValidateMessageIndex`. -/
def indexRules : MapData := [
  ("limit", ["required", "numeric", "min:1", "max:20"]),
  ("skip", ["required", "numeric", "min:0"]),
  ("from", ["required", "min:1"]),
  ("query", ["max:100"]),
  ("to", ["required", phoneNumberRule])]

/-- The `Rules` table of `ValidateMessageEvent`. -/
def eventRules : MapData := [
  ("event_name", ["required",
    "in:" ++ joinStr [MessageEventNameSent, MessageEventNameFailed,
      MessageEventNameDelivered] ","]),
  ("messageID", ["required", "uuid"])]

/-- What one entry of a rule table adds for its field: nothing when the field is left out,
else the errors of its rules; `none` for a panic. -/
def entryErrors (opts : Options) (e : String × List String) : Option (List String) :=
  if (isEmpty (getFlatVal opts.Data e.1) && !isContainRequiredField e.2) = true then some []
  else fieldErrors opts.Messages e.1 (getFlatVal opts.Data e.1) e.2

/-- Two results are the same mapping: both are panics, or both are bags with the same list
of messages under every key. -/
def SameMapping (res res2 : Option Values) : Prop :=
  match res, res2 with
  | some bag, some bag2 => ∀ key, bag.get key = bag2.get key
  | none, none => True
  | _, _ => False

/-- Two calls returned mappings with the same list of messages under `key`. -/
def SameErrorsUnder (res res2 : Option Values) (key : String) : Prop :=
  ∃ bag bag2, res = some bag ∧ res2 = some bag2 ∧ bag.get key = bag2.get key

/-- A validator with no telemetry, for statements about concrete requests. -/
def plainValidator : MessageHandlerValidator Unit Unit := ⟨(), ()⟩

/-! ## Lemmas -/

theorem Values.get_add (bag : Values) (k m key : String) :
    (bag.add k m).get key = if k = key then bag.get key ++ [m] else bag.get key := by
  induction bag with
  | nil => simp [Values.add, Values.get]
  | cons p rest ih =>
    obtain ⟨k0, ms⟩ := p
    by_cases h0 : k0 = k
    · subst h0
      by_cases h1 : k0 = key <;> simp [Values.add, Values.get, h1]
    · by_cases h1 : k0 = key
      · subst h1
        have : ¬ k = k0 := fun h => h0 h.symm
        simp [Values.add, Values.get, h0, this]
      · simp [Values.add, Values.get, h0, h1, ih]

theorem Values.add_ne_nil (bag : Values) (k m : String) : bag.add k m ≠ [] := by
  cases bag with
  | nil => simp [Values.add]
  | cons p rest =>
    obtain ⟨k0, ms⟩ := p
    by_cases h0 : k0 = k <;> simp [Values.add, h0]

theorem addAll_nil (bag : Values) (field : String) : addAll bag field [] = bag := rfl

theorem addAll_cons (bag : Values) (field e : String) (es : List String) :
    addAll bag field (e :: es) = addAll (bag.add field e) field es := rfl

theorem addAll_append (bag : Values) (field : String) (xs ys : List String) :
    addAll bag field (xs ++ ys) = addAll (addAll bag field xs) field ys := by
  simp [addAll, List.foldl_append]

theorem get_addAll (bag : Values) (field key : String) (errs : List String) :
    (addAll bag field errs).get key =
      if field = key then bag.get key ++ errs else bag.get key := by
  induction errs generalizing bag with
  | nil => simp [addAll_nil]
  | cons e es ih =>
    rw [addAll_cons, ih, Values.get_add]
    by_cases h : field = key <;> simp [h]

theorem addAll_eq_nil (bag : Values) (field : String) (errs : List String) :
    addAll bag field errs = [] ↔ bag = [] ∧ errs = [] := by
  induction errs generalizing bag with
  | nil => simp [addAll_nil]
  | cons e es ih =>
    rw [addAll_cons, ih]
    simp [Values.add_ne_nil]

theorem validateCustomRules_eq (messages : MapData) (field rule : String)
    (value : Option String) (bag : Values) (h : isRuleExist rule = true) :
    validateCustomRules field rule (getCustomMessage messages field rule) value bag =
      (ruleResult messages field value rule).map fun e => addAll bag field e.toList := by
  unfold validateCustomRules ruleResult
  rw [if_pos h]
  cases rulesFuncMap.find? fun kv => kv.1 = rule || hasPrefixStr rule (kv.1 ++ ":") with
  | none => rfl
  | some kv =>
    simp only
    cases kv.2 field rule (getCustomMessage messages field rule) value with
    | none => rfl
    | some e => cases e <;> rfl

theorem validateFieldRules_eq (messages : MapData) (field : String) (value : Option String)
    (rules : List String) (bag : Values) :
    validateFieldRules messages field value rules bag =
      (fieldErrors messages field value rules).map fun es => addAll bag field es := by
  induction rules generalizing bag with
  | nil => rfl
  | cons rule rest ih =>
    unfold validateFieldRules fieldErrors
    by_cases h : isRuleExist rule = true
    · rw [if_pos h, validateCustomRules_eq _ _ _ _ _ h]
      cases hr : ruleResult messages field value rule with
      | none => rfl
      | some e =>
        simp only [Option.map_some']
        rw [ih]
        cases fieldErrors messages field value rest with
        | none => rfl
        | some es => simp [addAll_append]
    · rw [if_neg h]
      have : ruleResult messages field value rule = none := by
        unfold ruleResult; rw [if_neg h]
      rw [this]; rfl


theorem validateFields_cons (opts : Options) (field : String) (rules : List String)
    (rest : MapData) (bag : Values) :
    validateFields opts ((field, rules) :: rest) bag =
      if (isEmpty (getFlatVal opts.Data field) && !isContainRequiredField rules) = true then
        validateFields opts rest bag
      else
        match fieldErrors opts.Messages field (getFlatVal opts.Data field) rules with
        | none => none
        | some es => validateFields opts rest (addAll bag field es) := by
  rw [validateFields, validateFieldRules_eq]
  split
  · rfl
  · cases fieldErrors opts.Messages field (getFlatVal opts.Data field) rules <;> rfl

theorem errIf_eq_nil (c : Prop) [Decidable c] (msg : String) : errIf c msg = [] ↔ ¬ c := by
  unfold errIf; split <;> simp [*]

theorem ite_some_some (c : Prop) [Decidable c] (m : String) :
    (if c then some (some m) else some none) = some (if c then some m else none) := by
  split <;> rfl

theorem ite_some_toList (c : Prop) [Decidable c] (m : String) :
    (if c then some m else none : Option String).toList = errIf c m := by
  unfold errIf; split <;> rfl

theorem regex_result (b : Bool) (m : String) :
    (match (some b : Option Bool) with
      | none => none
      | some true => some none
      | some false => some (some m)) = some (if b = false then some m else none) := by
  cases b <;> rfl

theorem in_result (b : Bool) (m : String) :
    (if b = true then some none else some (some m)) =
      some (if b = false then some m else none) := by
  cases b <;> rfl

theorem fieldErrors_receive_to (s : String) :
    fieldErrors receiveMessages "to" (some s) ["required", phoneNumberRule] =
      some (phoneErrs "to" receiveToText s) := by
  have h1 : ruleResult receiveMessages "to" (some s) "required" =
      if goLen s = 0 then some (some ("The " ++ "to" ++ " field is required"))
      else some none := rfl
  have h2 : ruleResult receiveMessages "to" (some s) phoneNumberRule =
      some (if matchAtoms phonePattern s.data = false then some receiveToText else none) :=
    regex_result _ _
  simp only [fieldErrors, h1, h2, ite_some_some, ite_some_toList, List.append_nil]
  rfl

theorem fieldErrors_receive_from (s : String) :
    fieldErrors receiveMessages "from" (some s) ["required", phoneNumberRule] =
      some (phoneErrs "from" receiveFromText s) := by
  have h1 : ruleResult receiveMessages "from" (some s) "required" =
      if goLen s = 0 then some (some ("The " ++ "from" ++ " field is required"))
      else some none := rfl
  have h2 : ruleResult receiveMessages "from" (some s) phoneNumberRule =
      some (if matchAtoms phonePattern s.data = false then some receiveFromText else none) :=
    regex_result _ _
  simp only [fieldErrors, h1, h2, ite_some_some, ite_some_toList, List.append_nil]
  rfl

theorem fieldErrors_receive_content (s : String) :
    fieldErrors receiveMessages "content" (some s) ["required", "min:1", "max:500"] =
      some (contentErrs s) := by
  have h1 : ruleResult receiveMessages "content" (some s) "required" =
      if goLen s = 0 then some (some ("The " ++ "content" ++ " field is required"))
      else some none := rfl
  have h2 : ruleResult receiveMessages "content" (some s) "min:1" =
      if (goLen s : Int) < 1 then
        some (some ("The " ++ "content" ++ " field must be minimum " ++ toString (1 : Int) ++ " char"))
      else some none := rfl
  have h3 : ruleResult receiveMessages "content" (some s) "max:500" =
      if (goLen s : Int) > 500 then
        some (some ("The " ++ "content" ++ " field must be maximum " ++ toString (500 : Int) ++ " char"))
      else some none := rfl
  simp only [fieldErrors, h1, h2, h3, ite_some_some, ite_some_toList, List.append_nil,
    List.append_assoc]
  simp only [contentErrs, requiredErrs, minErrs, maxErrs, List.append_assoc]

theorem fieldErrors_limit (messages : MapData) (s : String)
    (hm : messages.find "limit" = none) :
    fieldErrors messages "limit" (some s) ["required", "numeric", "min:1", "max:20"] =
      some (limitErrs s) := by
  have hc : ∀ rule, getCustomMessage messages "limit" rule = "" := by
    intro rule; unfold getCustomMessage; rw [hm]
  have h1 : ruleResult messages "limit" (some s) "required" =
      if goLen s = 0 then some (some (errorText (getCustomMessage messages "limit" "required") ("The " ++ "limit" ++ " field is required")))
      else some none := rfl
  have h2 : ruleResult messages "limit" (some s) "numeric" =
      (match (some (matchAtoms numericPattern s.data) : Option Bool) with
      | none => none
      | some true => some none
      | some false => some (some (errorText (getCustomMessage messages "limit" "numeric") ("The " ++ "limit" ++ " field must be numeric")))) := rfl
  have h3 : ruleResult messages "limit" (some s) "min:1" =
      if (goLen s : Int) < 1 then
        some (some (errorText (getCustomMessage messages "limit" "min:1") ("The " ++ "limit" ++ " field must be minimum " ++ toString (1 : Int) ++ " char")))
      else some none := rfl
  have h4 : ruleResult messages "limit" (some s) "max:20" =
      if (goLen s : Int) > 20 then
        some (some (errorText (getCustomMessage messages "limit" "max:20") ("The " ++ "limit" ++ " field must be maximum " ++ toString (20 : Int) ++ " char")))
      else some none := rfl
  have he : ∀ d, errorText "" d = d := fun d => rfl
  simp only [fieldErrors, h1, h2, h3, h4, hc, he, regex_result, ite_some_some, ite_some_toList,
    List.append_nil, List.append_assoc]
  simp only [limitErrs, requiredErrs, numericErrs, minErrs, maxErrs, List.append_assoc]

theorem fieldErrors_skip (s : String) :
    fieldErrors indexMessages "skip" (some s) ["required", "numeric", "min:0"] =
      some (skipErrs s) := by
  have h1 : ruleResult indexMessages "skip" (some s) "required" =
      if goLen s = 0 then some (some ("The " ++ "skip" ++ " field is required"))
      else some none := rfl
  have h2 : ruleResult indexMessages "skip" (some s) "numeric" =
      some (if matchAtoms numericPattern s.data = false then
        some ("The " ++ "skip" ++ " field must be numeric") else none) :=
    regex_result _ _
  have h3 : ruleResult indexMessages "skip" (some s) "min:0" =
      if (goLen s : Int) < 0 then
        some (some ("The " ++ "skip" ++ " field must be minimum " ++ toString (0 : Int) ++ " char"))
      else some none := rfl
  simp only [fieldErrors, h1, h2, h3, ite_some_some, ite_some_toList, List.append_nil,
    List.append_assoc]
  simp only [skipErrs, requiredErrs, numericErrs, minErrs, List.append_assoc]

theorem fieldErrors_index_from (s : String) :
    fieldErrors indexMessages "from" (some s) ["required", "min:1"] =
      some (indexFromErrs s) := by
  have h1 : ruleResult indexMessages "from" (some s) "required" =
      if goLen s = 0 then some (some ("The " ++ "from" ++ " field is required"))
      else some none := rfl
  have h2 : ruleResult indexMessages "from" (some s) "min:1" =
      if (goLen s : Int) < 1 then
        some (some ("The " ++ "from" ++ " field must be minimum " ++ toString (1 : Int) ++ " char"))
      else some none := rfl
  simp only [fieldErrors, h1, h2, ite_some_some, ite_some_toList, List.append_nil]
  rfl

theorem fieldErrors_query (s : String) :
    fieldErrors indexMessages "query" (some s) ["max:100"] = some (queryErrs s) := by
  have h1 : ruleResult indexMessages "query" (some s) "max:100" =
      if (goLen s : Int) > 100 then
        some (some ("The " ++ "query" ++ " field must be maximum " ++ toString (100 : Int) ++ " char"))
      else some none := rfl
  simp only [fieldErrors, h1, ite_some_some, ite_some_toList, List.append_nil]
  rfl

theorem fieldErrors_index_to (s : String) :
    fieldErrors indexMessages "to" (some s) ["required", phoneNumberRule] =
      some (phoneErrs "to" indexToText s) := by
  have h1 : ruleResult indexMessages "to" (some s) "required" =
      if goLen s = 0 then some (some ("The " ++ "to" ++ " field is required"))
      else some none := rfl
  have h2 : ruleResult indexMessages "to" (some s) phoneNumberRule =
      some (if matchAtoms phonePattern s.data = false then some indexToText else none) :=
    regex_result _ _
  simp only [fieldErrors, h1, h2, ite_some_some, ite_some_toList, List.append_nil]
  rfl

theorem fieldErrors_event_name (s : String) :
    fieldErrors [] "event_name" (some s)
        ["required", "in:" ++ joinStr [MessageEventNameSent, MessageEventNameFailed,
          MessageEventNameDelivered] ","] =
      some (eventNameErrs s) := by
  have h1 : ruleResult [] "event_name" (some s) "required" =
      if goLen s = 0 then some (some ("The " ++ "event_name" ++ " field is required"))
      else some none := rfl
  have h2 : ruleResult [] "event_name" (some s)
      ("in:" ++ joinStr [MessageEventNameSent, MessageEventNameFailed,
          MessageEventNameDelivered] ",") =
      if isIn eventNames s = true then some none
      else some (some ("The " ++ "event_name" ++ " field must be one of " ++
        joinStr eventNames ", ")) := rfl
  simp only [fieldErrors, h1, h2, in_result, ite_some_some, ite_some_toList, List.append_nil]
  rfl

theorem fieldErrors_messageID (s : String) :
    fieldErrors [] "messageID" (some s) ["required", "uuid"] = some (messageIDErrs s) := by
  have h1 : ruleResult [] "messageID" (some s) "required" =
      if goLen s = 0 then some (some ("The " ++ "messageID" ++ " field is required"))
      else some none := rfl
  have h2 : ruleResult [] "messageID" (some s) "uuid" =
      some (if matchAtoms uuidPattern s.data = false then
        some ("The " ++ "messageID" ++ " field must contain valid UUID") else none) :=
    regex_result _ _
  simp only [fieldErrors, h1, h2, ite_some_some, ite_some_toList, List.append_nil]
  rfl

theorem validateFields_step (opts : Options) (field : String) (rules : List String)
    (rest : MapData) (bag : Values) (s : String) (es : List String)
    (hv : getFlatVal opts.Data field = some s)
    (hskip : isContainRequiredField rules = true ∨ (s = "" → es = []))
    (he : fieldErrors opts.Messages field (some s) rules = some es) :
    validateFields opts ((field, rules) :: rest) bag =
      validateFields opts rest (addAll bag field es) := by
  rw [validateFields_cons, hv, he]
  by_cases hc : (isEmpty (some s) && !isContainRequiredField rules) = true
  · rw [if_pos hc]
    simp only [isEmpty, Bool.and_eq_true, decide_eq_true_eq, Bool.not_eq_true',
      ] at hc
    rcases hskip with h | h
    · rw [h] at hc; exact absurd hc.2 (by simp)
    · rw [h hc.1, addAll_nil]
  · rw [if_neg hc]

section Forms

variable {Logger Tracer Context : Type}

theorem ValidateMessageReceive_eq (v : MessageHandlerValidator Logger Tracer) (ctx : Context)
    (r : MessageReceive) :
    ValidateMessageReceive v ctx r = some (receiveBag r.To r.From r.Content) := by
  unfold ValidateMessageReceive ValidateStruct
  rw [if_neg (by simp)]
  refine (validateFields_step _ _ _ _ _ r.To (phoneErrs "to" receiveToText r.To)
    (by rfl) (Or.inl (by rfl)) (by exact fieldErrors_receive_to r.To)).trans ?_
  refine (validateFields_step _ _ _ _ _ r.From (phoneErrs "from" receiveFromText r.From)
    (by rfl) (Or.inl (by rfl)) (by exact fieldErrors_receive_from r.From)).trans ?_
  refine (validateFields_step _ _ _ _ _ r.Content (contentErrs r.Content)
    (by rfl) (Or.inl (by rfl)) (by exact fieldErrors_receive_content r.Content)).trans ?_
  rfl

theorem ValidateMessageSend_eq (v : MessageHandlerValidator Logger Tracer) (ctx : Context)
    (r : MessageSend) :
    ValidateMessageSend v ctx r = some (receiveBag r.To r.From r.Content) := by
  unfold ValidateMessageSend ValidateStruct
  rw [if_neg (by simp)]
  refine (validateFields_step _ _ _ _ _ r.To (phoneErrs "to" receiveToText r.To)
    (by rfl) (Or.inl (by rfl)) (by exact fieldErrors_receive_to r.To)).trans ?_
  refine (validateFields_step _ _ _ _ _ r.From (phoneErrs "from" receiveFromText r.From)
    (by rfl) (Or.inl (by rfl)) (by exact fieldErrors_receive_from r.From)).trans ?_
  refine (validateFields_step _ _ _ _ _ r.Content (contentErrs r.Content)
    (by rfl) (Or.inl (by rfl)) (by exact fieldErrors_receive_content r.Content)).trans ?_
  rfl

theorem ValidateMessageOutstanding_eq (v : MessageHandlerValidator Logger Tracer)
    (ctx : Context) (r : MessageOutstanding) :
    ValidateMessageOutstanding v ctx r = some (outstandingBag r.Limit) := by
  unfold ValidateMessageOutstanding ValidateStruct
  rw [if_neg (by simp)]
  refine (validateFields_step _ _ _ _ _ r.Limit (limitErrs r.Limit)
    (by rfl) (Or.inl (by rfl)) (by exact fieldErrors_limit _ r.Limit rfl)).trans ?_
  rfl

theorem queryErrs_empty : queryErrs "" = [] := by decide

theorem ValidateMessageIndex_eq (v : MessageHandlerValidator Logger Tracer) (ctx : Context)
    (r : MessageIndex) :
    ValidateMessageIndex v ctx r = some (indexBag r) := by
  unfold ValidateMessageIndex ValidateStruct
  rw [if_neg (by simp)]
  refine (validateFields_step _ _ _ _ _ r.Limit (limitErrs r.Limit)
    (by rfl) (Or.inl (by rfl)) (by exact fieldErrors_limit _ r.Limit rfl)).trans ?_
  refine (validateFields_step _ _ _ _ _ r.Skip (skipErrs r.Skip)
    (by rfl) (Or.inl (by rfl)) (by exact fieldErrors_skip r.Skip)).trans ?_
  refine (validateFields_step _ _ _ _ _ r.From (indexFromErrs r.From)
    (by rfl) (Or.inl (by rfl)) (by exact fieldErrors_index_from r.From)).trans ?_
  refine (validateFields_step _ _ _ _ _ r.Query (queryErrs r.Query)
    (by rfl) (Or.inr fun h => by rw [h]; exact queryErrs_empty)
    (by exact fieldErrors_query r.Query)).trans ?_
  refine (validateFields_step _ _ _ _ _ r.To (phoneErrs "to" indexToText r.To)
    (by rfl) (Or.inl (by rfl)) (by exact fieldErrors_index_to r.To)).trans ?_
  rfl

theorem ValidateMessageEvent_eq (v : MessageHandlerValidator Logger Tracer) (ctx : Context)
    (r : MessageEvent) :
    ValidateMessageEvent v ctx r = some (eventBag r) := by
  unfold ValidateMessageEvent ValidateStruct
  rw [if_neg (by simp)]
  refine (validateFields_step _ _ _ _ _ r.EventName (eventNameErrs r.EventName)
    (by rfl) (Or.inl (by rfl)) (by exact fieldErrors_event_name r.EventName)).trans ?_
  refine (validateFields_step _ _ _ _ _ r.MessageID (messageIDErrs r.MessageID)
    (by rfl) (Or.inl (by rfl)) (by exact fieldErrors_messageID r.MessageID)).trans ?_
  rfl

end Forms

/-! ## The patterns -/

theorem matchRep_iff (cls : CharClass) (lo : Nat) (hi : Option Nat) (k : List Char → Bool)
    (n : Nat) (s : List Char) :
    matchRep cls lo hi k n s = true ↔
      ∃ pre post, s = pre ++ post ∧ (∀ c ∈ pre, cls.mem c = true) ∧ lo ≤ n + pre.length ∧
        (pre = [] ∨ ∀ h, hi = some h → n + pre.length ≤ h) ∧ k post = true := by
  induction s generalizing n with
  | nil =>
    simp only [matchRep, Bool.and_eq_true, decide_eq_true_eq]
    constructor
    · rintro ⟨h1, h2⟩
      exact ⟨[], [], rfl, by simp, by simpa using h1, Or.inl rfl, h2⟩
    · rintro ⟨pre, post, hs, _, h1, _, h2⟩
      have hp : pre = [] ∧ post = [] := by simpa using hs.symm
      obtain ⟨rfl, rfl⟩ := hp
      exact ⟨by simpa using h1, h2⟩
  | cons c cs ih =>
    simp only [matchRep, Bool.or_eq_true, Bool.and_eq_true, decide_eq_true_eq, ih]
    constructor
    · rintro (⟨h1, h2⟩ | ⟨⟨hc, hh⟩, pre, post, hs, hall, hlo, hhi, hk⟩)
      · exact ⟨[], c :: cs, rfl, by simp, by simpa using h1, Or.inl rfl, h2⟩
      · refine ⟨c :: pre, post, by simp [hs], ?_, ?_, Or.inr ?_, hk⟩
        · intro x hx
          rcases List.mem_cons.1 hx with rfl | hx
          · exact hc
          · exact hall x hx
        · simp only [List.length_cons]; omega
        · intro h hh2
          subst hh2
          simp only [decide_eq_true_eq] at hh
          rcases hhi with rfl | hhi
          · simp only [List.length_cons, List.length_nil]; omega
          · have := hhi h rfl
            simp only [List.length_cons]; omega
    · rintro ⟨pre, post, hs, hall, hlo, hhi, hk⟩
      cases pre with
      | nil =>
        left
        simp only [List.nil_append] at hs
        subst hs
        exact ⟨by simpa using hlo, hk⟩
      | cons x xs =>
        right
        simp only [List.cons_append, List.cons.injEq] at hs
        obtain ⟨rfl, rfl⟩ := hs
        simp only [List.length_cons] at hlo hhi
        refine ⟨⟨hall c (List.mem_cons_self _ _), ?_⟩, xs, post, rfl, ?_, by omega, ?_, hk⟩
        · cases hi with
          | none => rfl
          | some h =>
            rcases hhi with hhi | hhi
            · exact absurd hhi (by simp)
            · have := hhi h rfl
              simp only [decide_eq_true_eq]; omega
        · intro y hy
          exact hall y (List.mem_cons_of_mem _ hy)
        · right
          intro h hh
          rcases hhi with hhi | hhi
          · exact absurd hhi (by simp)
          · have := hhi h hh
            omega

theorem compile_phone : compileRegex "^\\+[1-9]\\d{1,14}$" = some phonePattern := by decide

theorem compile_numeric : compileRegex Numeric = some numericPattern := by decide

theorem matchRep_one (cls : CharClass) (k : List Char → Bool) (s : List Char) :
    matchRep cls 1 (some 1) k 0 s = true ↔
      ∃ c rest, s = c :: rest ∧ cls.mem c = true ∧ k rest = true := by
  rw [matchRep_iff]
  constructor
  · rintro ⟨pre, post, hs, hall, hlo, hhi, hk⟩
    match pre, hs, hall, hlo, hhi with
    | [c], hs, hall, _, _ => exact ⟨c, post, hs, hall c (by simp), hk⟩
    | [], _, _, hlo, _ => simp at hlo
    | _ :: _ :: _, _, _, _, hhi =>
      rcases hhi with h | h
      · simp at h
      · have := h 1 rfl
        simp at this
  · rintro ⟨c, rest, hs, hc, hk⟩
    exact ⟨[c], rest, hs, by simpa using hc, by simp, Or.inr (by simp), hk⟩

theorem matchRep_last (cls : CharClass) (lo : Nat) (hi : Option Nat) (s : List Char) :
    matchRep cls lo hi (fun r => r.isEmpty) 0 s = true ↔
      (∀ c ∈ s, cls.mem c = true) ∧ lo ≤ s.length ∧ ∀ h, hi = some h → s.length ≤ h := by
  rw [matchRep_iff]
  constructor
  · rintro ⟨pre, post, hs, hall, hlo, hhi, hk⟩
    have hp : post = [] := by simpa using hk
    subst hp
    simp only [List.append_nil] at hs
    subst hs
    refine ⟨hall, by simpa using hlo, ?_⟩
    intro h hh
    rcases hhi with rfl | hhi
    · simp
    · simpa using hhi h hh
  · rintro ⟨hall, hlo, hhi⟩
    exact ⟨s, [], by simp, hall, by simpa using hlo, Or.inr (by simpa using hhi), rfl⟩

theorem mem_single (a c : Char) : CharClass.mem [(a, a)] c = true ↔ c = a := by
  simp only [CharClass.mem, List.any_cons, List.any_nil, Bool.or_false, Bool.and_eq_true,
    decide_eq_true_eq]
  constructor
  · rintro ⟨h1, h2⟩
    exact le_antisymm h2 h1
  · rintro rfl
    exact ⟨le_refl _, le_refl _⟩

theorem mem_range (a b c : Char) : CharClass.mem [(a, b)] c = true ↔ a ≤ c ∧ c ≤ b := by
  simp [CharClass.mem]

theorem phone_match_iff (s : String) :
    matchAtoms phonePattern s.data = true ↔ specE164 s = true := by
  unfold specE164
  simp only [phonePattern, matchAtoms, matchRep_one, matchRep_last, mem_single, mem_range]
  constructor
  · rintro ⟨p, r1, hs, rfl, d, ds, rfl, hd, hall, hlo, hhi⟩
    rw [hs]
    simp only [Bool.and_eq_true, decide_eq_true_eq, List.all_eq_true, asciiDigit]
    exact ⟨⟨⟨trivial, hd⟩, hall⟩, hlo, hhi 14 rfl⟩
  · intro h
    split at h
    · rename_i p d ds hs
      simp only [Bool.and_eq_true, decide_eq_true_eq, List.all_eq_true, asciiDigit] at h
      obtain ⟨⟨⟨rfl, hd⟩, hall⟩, hlo, hhi⟩ := h
      refine ⟨_, _, hs, rfl, d, ds, rfl, hd, hall, hlo, ?_⟩
      intro h hh
      cases hh
      exact hhi
    · exact absurd h (by simp)

/-! ## Lengths and empty error lists -/

theorem go_eq (l : List Char) :
    String.utf8ByteSize.go l = (l.map Char.utf8Size).sum := by
  induction l with
  | nil => rfl
  | cons c cs ih =>
    show String.utf8ByteSize.go cs + c.utf8Size = _
    rw [ih, List.map_cons, List.sum_cons, Nat.add_comm]

theorem goLen_eq (s : String) : goLen s = (s.data.map Char.utf8Size).sum := by
  cases s with
  | mk l => exact go_eq l

theorem sizes_ge (l : List Char) : l.length ≤ (l.map Char.utf8Size).sum := by
  induction l with
  | nil => simp
  | cons c cs ih =>
    have := c.utf8Size_pos
    simp only [List.length_cons, List.map_cons, List.sum_cons]
    omega

theorem sizes_le (l : List Char) : (l.map Char.utf8Size).sum ≤ 4 * l.length := by
  induction l with
  | nil => simp
  | cons c cs ih =>
    have := c.utf8Size_le_four
    simp only [List.length_cons, List.map_cons, List.sum_cons]
    omega

theorem sizes_ascii (l : List Char) (h : ∀ c ∈ l, c.toNat < 128) :
    (l.map Char.utf8Size).sum = l.length := by
  induction l with
  | nil => simp
  | cons c cs ih =>
    have hc : c.utf8Size = 1 := by
      have := h c (List.mem_cons_self _ _)
      have h2 : c.val ≤ 127 := by
        rw [UInt32.le_def]
        simp only [Char.toNat] at this
        show c.val.toNat ≤ 127
        omega
      simp [Char.utf8Size, h2]
    simp only [List.length_cons, List.map_cons, List.sum_cons, hc]
    rw [ih (fun x hx => h x (List.mem_cons_of_mem _ hx))]
    omega

theorem length_le_goLen (s : String) : s.length ≤ goLen s := by
  rw [goLen_eq]; exact sizes_ge s.data

theorem goLen_le (s : String) : goLen s ≤ 4 * s.length := by
  rw [goLen_eq]; exact sizes_le s.data

theorem goLen_ascii (s : String) (h : ∀ c ∈ s.data, c.toNat < 128) : goLen s = s.length := by
  rw [goLen_eq]; exact sizes_ascii s.data h

theorem goLen_eq_zero (s : String) : goLen s = 0 ↔ s = "" := by
  constructor
  · intro h
    have h1 := length_le_goLen s
    have h2 : s.length = 0 := by omega
    have h3 : s.data = [] := List.length_eq_zero.1 h2
    cases s with
    | mk l => simp only at h3; subst h3; rfl
  · rintro rfl
    rfl

theorem requiredErrs_eq_nil (field s : String) : requiredErrs field s = [] ↔ s ≠ "" := by
  rw [requiredErrs, errIf_eq_nil, goLen_eq_zero]

theorem specE164_ne_empty (s : String) (h : specE164 s = true) : s ≠ "" := by
  rintro rfl
  exact absurd h (by decide)

theorem phoneErrs_eq_nil (field text s : String) :
    phoneErrs field text s = [] ↔ specE164 s = true := by
  rw [phoneErrs, List.append_eq_nil, requiredErrs_eq_nil, regexErrs, errIf_eq_nil,
    Bool.not_eq_false, phone_match_iff]
  exact ⟨fun h => h.2, fun h => ⟨specE164_ne_empty s h, h⟩⟩

theorem contentErrs_eq_nil (s : String) :
    contentErrs s = [] ↔ 1 ≤ goLen s ∧ goLen s ≤ 500 := by
  simp only [contentErrs, requiredErrs, minErrs, maxErrs, List.append_eq_nil, errIf_eq_nil]
  omega

/-! ## The returned bags, field by field -/

theorem receiveBag_get_to (t f c : String) :
    (receiveBag t f c).get "to" = phoneErrs "to" receiveToText t := by
  simp [receiveBag, get_addAll, Values.get]

theorem receiveBag_get_from (t f c : String) :
    (receiveBag t f c).get "from" = phoneErrs "from" receiveFromText f := by
  simp [receiveBag, get_addAll, Values.get]

theorem receiveBag_get_content (t f c : String) :
    (receiveBag t f c).get "content" = contentErrs c := by
  simp [receiveBag, get_addAll, Values.get]

theorem outstandingBag_get_limit (l : String) :
    (outstandingBag l).get "limit" = limitErrs l := by
  simp [outstandingBag, get_addAll, Values.get]

theorem indexBag_get_limit (r : MessageIndex) : (indexBag r).get "limit" = limitErrs r.Limit := by
  simp [indexBag, get_addAll, Values.get]

theorem indexBag_get_skip (r : MessageIndex) : (indexBag r).get "skip" = skipErrs r.Skip := by
  simp [indexBag, get_addAll, Values.get]

theorem indexBag_get_from (r : MessageIndex) :
    (indexBag r).get "from" = indexFromErrs r.From := by
  simp [indexBag, get_addAll, Values.get]

theorem indexBag_get_query (r : MessageIndex) : (indexBag r).get "query" = queryErrs r.Query := by
  simp [indexBag, get_addAll, Values.get]

theorem indexBag_get_to (r : MessageIndex) :
    (indexBag r).get "to" = phoneErrs "to" indexToText r.To := by
  simp [indexBag, get_addAll, Values.get]

theorem eventBag_get_event_name (r : MessageEvent) :
    (eventBag r).get "event_name" = eventNameErrs r.EventName := by
  simp [eventBag, get_addAll, Values.get]

theorem eventBag_get_messageID (r : MessageEvent) :
    (eventBag r).get "messageID" = messageIDErrs r.MessageID := by
  simp [eventBag, get_addAll, Values.get]

theorem ruleRegex_phone (field message s : String) :
    ruleRegex field phoneNumberRule message (some s) =
      if matchAtoms phonePattern s.data = true then some none
      else some (some (errorText message ("The " ++ field ++ " field format is invalid"))) := by
  have h : ruleRegex field phoneNumberRule message (some s) =
      (match (some (matchAtoms phonePattern s.data) : Option Bool) with
      | none => none
      | some true => some none
      | some false =>
        some (some (errorText message ("The " ++ field ++ " field format is invalid")))) := rfl
  rw [h]
  cases matchAtoms phonePattern s.data <;> rfl

/-! ## The numeric pattern -/

theorem matchRep_opt (cls : CharClass) (k : List Char → Bool) (s : List Char) :
    matchRep cls 0 (some 1) k 0 s = true ↔
      k s = true ∨ ∃ c rest, s = c :: rest ∧ cls.mem c = true ∧ k rest = true := by
  rw [matchRep_iff]
  constructor
  · rintro ⟨pre, post, hs, hall, _, hhi, hk⟩
    match pre, hs, hall, hhi with
    | [], hs, _, _ => left; simpa [hs] using hk
    | [c], hs, hall, _ => exact Or.inr ⟨c, post, hs, hall c (by simp), hk⟩
    | _ :: _ :: _, _, _, hhi =>
      rcases hhi with h | h
      · simp at h
      · have := h 1 rfl
        simp at this
  · rintro (hk | ⟨c, rest, hs, hc, hk⟩)
    · exact ⟨[], s, rfl, by simp, by simp, Or.inl rfl, hk⟩
    · exact ⟨[c], rest, hs, by simpa using hc, by simp, Or.inr (by simp), hk⟩

theorem numeric_match_iff (s : String) :
    matchAtoms numericPattern s.data = true ↔ specNumeric s = true := by
  unfold specNumeric
  simp only [numericPattern, matchAtoms, matchRep_opt, matchRep_last, mem_single, mem_range]
  have hd : ∀ l : List Char, (∀ c ∈ l, '0' ≤ c ∧ c ≤ '9') ↔ l.all asciiDigit = true := by
    intro l; simp [asciiDigit]
  have hnd : asciiDigit '-' = false := by decide
  simp only [hd]
  cases s.data with
  | nil =>
    constructor
    · rintro (⟨_, hlen, _⟩ | ⟨c, rest, hs, _⟩)
      · simp at hlen
      · simp at hs
    · intro h; simp at h
  | cons c ds =>
    by_cases hc : c = '-'
    · subst hc
      simp only [if_true, Bool.and_eq_true, Bool.not_eq_true']
      constructor
      · rintro (⟨hall, _⟩ | ⟨c2, rest, hs, _, hall, hlen, _⟩)
        · simp [hnd] at hall
        · simp only [List.cons.injEq] at hs
          obtain ⟨_, rfl⟩ := hs
          refine ⟨?_, hall⟩
          cases ds with
          | nil => simp at hlen
          | cons _ _ => rfl
      · rintro ⟨hne, hall⟩
        refine Or.inr ⟨'-', ds, rfl, rfl, hall, ?_, ?_⟩
        · cases ds with
          | nil => simp at hne
          | cons _ _ => simp
        · intro h hh; cases hh
    · simp only [hc, if_false]
      constructor
      · rintro (⟨hall, _⟩ | ⟨c2, rest, hs, hc2, _⟩)
        · exact hall
        · simp only [List.cons.injEq] at hs
          exact absurd (hs.1.trans hc2) hc
      · intro hall
        exact Or.inl ⟨hall, by simp, by intro h hh; cases hh⟩

/-! ## The numeric rules -/

theorem numericErrs_eq_nil (field s : String) :
    numericErrs field s = [] ↔ specNumeric s = true := by
  rw [numericErrs, errIf_eq_nil, Bool.not_eq_false, numeric_match_iff]

theorem specNumeric_ne_empty (s : String) (h : specNumeric s = true) : s ≠ "" := by
  rintro rfl
  exact absurd h (by decide)

theorem limitErrs_eq_nil (s : String) :
    limitErrs s = [] ↔ specNumeric s = true ∧ 1 ≤ goLen s ∧ goLen s ≤ 20 := by
  simp only [limitErrs, List.append_eq_nil, numericErrs_eq_nil, requiredErrs_eq_nil, minErrs,
    maxErrs, errIf_eq_nil]
  constructor
  · rintro ⟨⟨⟨_, h2⟩, h3⟩, h4⟩
    exact ⟨h2, by omega, by omega⟩
  · rintro ⟨h1, h2, h3⟩
    exact ⟨⟨⟨specNumeric_ne_empty s h1, h1⟩, by omega⟩, by omega⟩

theorem skipErrs_eq_nil (s : String) : skipErrs s = [] ↔ specNumeric s = true := by
  simp only [skipErrs, List.append_eq_nil, numericErrs_eq_nil, requiredErrs_eq_nil, minErrs,
    errIf_eq_nil]
  constructor
  · rintro ⟨⟨_, h2⟩, _⟩
    exact h2
  · intro h1
    exact ⟨⟨specNumeric_ne_empty s h1, h1⟩, by omega⟩

theorem goLen_replicate (n : Nat) (c : Char) :
    goLen (String.mk (List.replicate n c)) = n * c.utf8Size := by
  rw [goLen_eq]
  simp [List.map_replicate, List.sum_replicate]

/-! ## Reading a result -/

theorem noErrorUnder_some (bag : Values) (key : String) :
    NoErrorUnder (some bag) key ↔ bag.get key = [] := by
  constructor
  · rintro ⟨b, hb, h⟩
    cases hb
    exact h
  · intro h
    exact ⟨bag, rfl, h⟩

theorem errorUnder_some (bag : Values) (key : String) :
    ErrorUnder (some bag) key ↔ bag.get key ≠ [] := by
  constructor
  · rintro ⟨b, hb, h⟩
    cases hb
    exact h
  · intro h
    exact ⟨bag, rfl, h⟩

theorem errorsUnder_some (bag : Values) (key : String) (msgs : List String) :
    ErrorsUnder (some bag) key msgs ↔ bag.get key = msgs := by
  constructor
  · rintro ⟨b, hb, h⟩
    cases hb
    exact h
  · intro h
    exact ⟨bag, rfl, h⟩

/-! ## The event names -/

theorem eventNameErrs_eq_nil (s : String) :
    eventNameErrs s = [] ↔ s = "sent" ∨ s = "failed" ∨ s = "delivered" := by
  simp only [eventNameErrs, List.append_eq_nil, requiredErrs_eq_nil, inErrs, errIf_eq_nil,
    Bool.not_eq_false, isIn, eventNames, List.any_cons, List.any_nil, Bool.or_false,
    Bool.or_eq_true, decide_eq_true_eq]
  constructor
  · rintro ⟨_, h | h | h⟩
    · exact Or.inl h.symm
    · exact Or.inr (Or.inl h.symm)
    · exact Or.inr (Or.inr h.symm)
  · rintro (rfl | rfl | rfl)
    · exact ⟨by decide, Or.inl rfl⟩
    · exact ⟨by decide, Or.inr (Or.inl rfl)⟩
    · exact ⟨by decide, Or.inr (Or.inr rfl)⟩

/-! ## The UUID pattern -/

theorem hasShapeThen_isEmpty (ps : List (Char → Bool)) (cs : List Char) :
    hasShapeThen (fun s => s.isEmpty) ps cs = hasShape ps cs := by
  induction ps generalizing cs with
  | nil => cases cs <;> rfl
  | cons p ps ih =>
    cases cs with
    | nil => rfl
    | cons c cs => simp only [hasShapeThen, hasShape, ih]

theorem hasShapeThen_append (k : List Char → Bool) (xs ys : List (Char → Bool))
    (cs : List Char) :
    hasShapeThen k (xs ++ ys) cs = hasShapeThen (hasShapeThen k ys) xs cs := by
  induction xs generalizing cs with
  | nil => rfl
  | cons p ps ih =>
    cases cs with
    | nil => rfl
    | cons c cs =>
      show (p c && hasShapeThen k (ps ++ ys) cs) = _
      rw [ih]
      rfl

theorem matchRep_exact (cls : CharClass) (m : Nat) (k : List Char → Bool) (d n : Nat)
    (h : n + d = m) (s : List Char) :
    matchRep cls m (some m) k n s = hasShapeThen k (List.replicate d cls.mem) s := by
  induction d generalizing n s with
  | zero =>
    have hn : n = m := by omega
    subst hn
    cases s with
    | nil => simp [matchRep, hasShapeThen]
    | cons c cs => simp [matchRep, hasShapeThen]
  | succ d ih =>
    have hlt : n < m := by omega
    have hle : ¬ m ≤ n := by omega
    cases s with
    | nil => simp [matchRep, hasShapeThen, List.replicate_succ, hle]
    | cons c cs =>
      simp only [matchRep, List.replicate_succ, hasShapeThen, hle, hlt, decide_False,
        decide_True, Bool.false_and, Bool.false_or, Bool.and_true]
      rw [ih (n + 1) (by omega)]

theorem matchAtoms_exact (p : Pattern) (hp : ∀ a ∈ p, a.hi = some a.lo) (cs : List Char) :
    matchAtoms p cs = hasShape (expand p) cs := by
  rw [← hasShapeThen_isEmpty]
  induction p generalizing cs with
  | nil => rfl
  | cons a rest ih =>
    have ha := hp a (List.mem_cons_self _ _)
    have hrest : matchAtoms rest = hasShapeThen (fun s => s.isEmpty) (expand rest) :=
      funext fun s => ih (fun b hb => hp b (List.mem_cons_of_mem _ hb)) s
    simp only [matchAtoms, expand, List.flatMap_cons, hasShapeThen_append]
    rw [ha, matchRep_exact a.cls a.lo _ a.lo 0 (by omega), hrest]
    rfl

theorem hexClass_mem : hexClass.mem = lowerHex := by
  funext c
  simp [hexClass, CharClass.mem, lowerHex, asciiDigit, Bool.decide_and]

theorem single_mem (a : Char) : CharClass.mem [(a, a)] = fun c => decide (c = a) := by
  funext c
  rw [Bool.eq_iff_iff, mem_single]; simp

theorem variantClass_mem :
    variantClass.mem = fun c => decide (c ∈ ['8', '9', 'a', 'A', 'b', 'B']) := by
  funext c
  rw [Bool.eq_iff_iff]
  simp only [variantClass, CharClass.mem, List.any_cons, List.any_nil, Bool.or_false,
    Bool.or_eq_true, Bool.and_eq_true, decide_eq_true_eq, List.mem_cons, List.mem_singleton,
    List.not_mem_nil, or_false]
  have e : ∀ a : Char, (a ≤ c ∧ c ≤ a) ↔ c = a :=
    fun a => ⟨fun h => le_antisymm h.2 h.1, fun h => h ▸ ⟨le_refl _, le_refl _⟩⟩
  simp only [e]

theorem expand_uuid : expand uuidPattern = uuidShape := by
  simp only [expand, uuidPattern, List.flatMap_cons, List.flatMap_nil, hexClass_mem, single_mem,
    variantClass_mem, uuidShape, List.append_nil, List.append_assoc]
  rfl

theorem uuid_match_iff (s : String) :
    matchAtoms uuidPattern s.data = true ↔ specUUID s = true := by
  rw [matchAtoms_exact uuidPattern (by decide), expand_uuid, specUUID]

theorem compile_uuid : compileRegex UUID = some uuidPattern := by decide

/-! ## More empty error lists -/

theorem messageIDErrs_eq_nil (s : String) : messageIDErrs s = [] ↔ specUUID s = true := by
  rw [messageIDErrs, List.append_eq_nil, requiredErrs_eq_nil, uuidErrs, errIf_eq_nil,
    Bool.not_eq_false, uuid_match_iff]
  constructor
  · exact fun h => h.2
  · intro h
    refine ⟨?_, h⟩
    rintro rfl
    exact absurd h (by decide)

theorem indexFromErrs_eq_nil (s : String) : indexFromErrs s = [] ↔ s ≠ "" := by
  simp only [indexFromErrs, List.append_eq_nil, requiredErrs_eq_nil, minErrs, errIf_eq_nil]
  constructor
  · exact fun h => h.1
  · intro h
    refine ⟨h, ?_⟩
    have : goLen s ≠ 0 := fun h0 => h ((goLen_eq_zero s).1 h0)
    omega

theorem phoneErrs_ne_nil (field text s : String) (h : specE164 s = false) :
    phoneErrs field text s ≠ [] := by
  intro hnil
  rw [phoneErrs_eq_nil] at hnil
  rw [hnil] at h
  exact absurd h (by decide)

/-! ## One failing rule -/

theorem phoneErrs_eq_text (field text s : String) (hne : s ≠ "") (hbad : specE164 s = false) :
    phoneErrs field text s = [text] := by
  have h1 : requiredErrs field s = [] := (requiredErrs_eq_nil field s).2 hne
  have h2 : matchAtoms phonePattern s.data = false := by
    cases h : matchAtoms phonePattern s.data with
    | false => rfl
    | true =>
      rw [(phone_match_iff s).1 h] at hbad
      exact absurd hbad (by decide)
  rw [phoneErrs, h1, regexErrs, errIf, if_pos h2]
  rfl

theorem queryErrs_eq_nil (s : String) : queryErrs s = [] ↔ goLen s ≤ 100 := by
  simp only [queryErrs, maxErrs, errIf_eq_nil]
  omega

/-! ## The keys of a bag -/

theorem add_keys (bag : Values) (k m : String) :
    (bag.add k m).map Prod.fst =
      if k ∈ bag.map Prod.fst then bag.map Prod.fst else bag.map Prod.fst ++ [k] := by
  induction bag with
  | nil => simp [Values.add]
  | cons p rest ih =>
    obtain ⟨k0, ms⟩ := p
    by_cases h0 : k0 = k
    · subst h0
      simp [Values.add]
    · have h1 : ¬ k = k0 := fun h => h0 h.symm
      simp only [Values.add, h0, if_false, List.map_cons, ih, List.mem_cons, h1, false_or]
      split <;> simp

theorem add_wellKeyed (keys : List String) (bag : Values) (k m : String) (hk : k ∈ keys)
    (h : ∀ p ∈ bag, p.1 ∈ keys ∧ p.2 ≠ []) :
    ∀ p ∈ bag.add k m, p.1 ∈ keys ∧ p.2 ≠ [] := by
  induction bag with
  | nil =>
    intro p hp
    simp only [Values.add, List.mem_singleton] at hp
    subst hp
    exact ⟨hk, by simp⟩
  | cons q rest ih =>
    obtain ⟨k0, ms⟩ := q
    have hq := h (k0, ms) (List.mem_cons_self _ _)
    have hrest : ∀ p ∈ rest, p.1 ∈ keys ∧ p.2 ≠ [] :=
      fun p hp => h p (List.mem_cons_of_mem _ hp)
    intro p hp
    by_cases h0 : k0 = k
    · simp only [Values.add, h0, if_true, List.mem_cons] at hp
      rcases hp with rfl | hp
      · exact ⟨hk, by simp⟩
      · exact hrest p hp
    · simp only [Values.add, h0, if_false, List.mem_cons] at hp
      rcases hp with rfl | hp
      · exact hq
      · exact ih hrest p hp

theorem add_nodup (bag : Values) (k m : String) (h : (bag.map Prod.fst).Nodup) :
    ((bag.add k m).map Prod.fst).Nodup := by
  rw [add_keys]
  split
  · exact h
  · rename_i hk
    exact List.Nodup.append h (List.nodup_singleton k) (by
      intro a ha hb
      rw [List.mem_singleton] at hb
      subst hb
      exact hk ha)

/-- A bag is a mapping with keys among `keys`: no key twice, every key in `keys`, no empty
list. -/
theorem addAll_wellKeyed (keys : List String) (bag : Values) (k : String) (errs : List String)
    (hk : k ∈ keys)
    (h : (bag.map Prod.fst).Nodup ∧ ∀ p ∈ bag, p.1 ∈ keys ∧ p.2 ≠ []) :
    ((addAll bag k errs).map Prod.fst).Nodup ∧
      ∀ p ∈ addAll bag k errs, p.1 ∈ keys ∧ p.2 ≠ [] := by
  induction errs generalizing bag with
  | nil => exact h
  | cons e es ih =>
    rw [addAll_cons]
    exact ih _ ⟨add_nodup bag k e h.1, add_wellKeyed keys bag k e hk h.2⟩

theorem nil_wellKeyed (keys : List String) :
    (([] : Values).map Prod.fst).Nodup ∧ ∀ p ∈ ([] : Values), p.1 ∈ keys ∧ p.2 ≠ [] :=
  ⟨List.nodup_nil, fun _ hp => absurd hp (List.not_mem_nil _)⟩

/-! ## The order of the rule table -/

theorem validateFields_entry (opts : Options) (e : String × List String) (rest : MapData)
    (bag : Values) :
    validateFields opts (e :: rest) bag =
      match entryErrors opts e with
      | none => none
      | some es => validateFields opts rest (addAll bag e.1 es) := by
  obtain ⟨field, rules⟩ := e
  rw [validateFields_cons, entryErrors]
  split
  · rfl
  · rfl

theorem sameMapping_refl (res : Option Values) : SameMapping res res := by
  cases res with
  | none => exact True.intro
  | some bag => exact fun _ => rfl

theorem sameMapping_trans (a b c : Option Values) (h1 : SameMapping a b)
    (h2 : SameMapping b c) : SameMapping a c := by
  cases a <;> cases b <;> cases c <;> simp only [SameMapping] at h1 h2 ⊢
  intro key
  exact (h1 key).trans (h2 key)

theorem addAll_agree (b1 b2 : Values) (field : String) (es : List String)
    (h : ∀ key, b1.get key = b2.get key) :
    ∀ key, (addAll b1 field es).get key = (addAll b2 field es).get key := by
  intro key
  rw [get_addAll, get_addAll, h key]

theorem validateFields_agree (opts : Options) (table : MapData) (b1 b2 : Values)
    (h : ∀ key, b1.get key = b2.get key) :
    SameMapping (validateFields opts table b1) (validateFields opts table b2) := by
  induction table generalizing b1 b2 with
  | nil => exact h
  | cons e rest ih =>
    rw [validateFields_entry, validateFields_entry]
    cases entryErrors opts e with
    | none => exact True.intro
    | some es => exact ih _ _ (addAll_agree b1 b2 e.1 es h)

theorem addAll_swap (b1 b2 : Values) (f g : String) (es gs : List String) (hfg : f ≠ g)
    (h : ∀ key, b1.get key = b2.get key) :
    ∀ key, (addAll (addAll b1 f es) g gs).get key = (addAll (addAll b2 g gs) f es).get key := by
  intro key
  simp only [get_addAll, h key]
  by_cases h1 : f = key
  · have h2 : ¬ g = key := fun hg => hfg (h1.trans hg.symm)
    simp [h1, h2]
  · simp [h1]

theorem validateFields_perm (opts : Options) (t1 t2 : MapData) (hperm : t1.Perm t2)
    (hnodup : (t1.map Prod.fst).Nodup) (b1 b2 : Values)
    (h : ∀ key, b1.get key = b2.get key) :
    SameMapping (validateFields opts t1 b1) (validateFields opts t2 b2) := by
  induction hperm generalizing b1 b2 with
  | nil => exact h
  | cons e _ ih =>
    rw [validateFields_entry, validateFields_entry]
    cases entryErrors opts e with
    | none => exact True.intro
    | some es =>
      exact ih (List.nodup_cons.1 hnodup).2 _ _ (addAll_agree b1 b2 e.1 es h)
  | swap x y l =>
    have hxy : y.1 ≠ x.1 := by
      intro hEq
      have := (List.nodup_cons.1 hnodup).1
      exact this (by simp [hEq])
    simp only [validateFields_entry]
    cases entryErrors opts x with
    | none =>
      cases entryErrors opts y with
      | none => exact True.intro
      | some ys => exact True.intro
    | some xs =>
      cases entryErrors opts y with
      | none => exact True.intro
      | some ys =>
        exact validateFields_agree opts l _ _ (addAll_swap b1 b2 y.1 x.1 ys xs hxy h)
  | trans hp1 _ ih1 ih2 =>
    have hnodup2 := (List.Perm.nodup_iff (List.Perm.map Prod.fst hp1)).1 hnodup
    exact sameMapping_trans _ _ _ (ih1 hnodup b1 b1 (fun _ => rfl)) (ih2 hnodup2 b1 b2 h)

theorem validateFields_congr (o1 o2 : Options) (hd : o1.Data = o2.Data)
    (hm : o1.Messages = o2.Messages) (table : MapData) (bag : Values) :
    validateFields o1 table bag = validateFields o2 table bag := by
  induction table generalizing bag with
  | nil => rfl
  | cons e rest ih =>
    obtain ⟨field, rules⟩ := e
    simp only [validateFields, hd, hm, ih]

theorem validateStruct_perm (data : FlatMap) (messages : MapData) (t1 t2 : MapData)
    (hperm : t2.Perm t1) (hnodup : (t1.map Prod.fst).Nodup) :
    SameMapping (ValidateStruct { Data := data, Rules := t2, Messages := messages })
      (ValidateStruct { Data := data, Rules := t1, Messages := messages }) := by
  unfold ValidateStruct
  simp only [hperm.length_eq]
  split
  · exact True.intro
  · rw [validateFields_congr { Data := data, Rules := t2, Messages := messages }
      { Data := data, Rules := t1, Messages := messages } rfl rfl]
    exact validateFields_perm _ t2 t1 hperm
      ((List.Perm.nodup_iff (List.Perm.map Prod.fst hperm)).2 hnodup) [] [] (fun _ => rfl)

/-! ## The accepted UUIDs are well formed -/

theorem hasShape_mono (ps qs : List (Char → Bool))
    (h : List.Forall₂ (fun p q => ∀ c, p c = true → q c = true) ps qs) (cs : List Char)
    (hs : hasShape ps cs = true) : hasShape qs cs = true := by
  induction h generalizing cs with
  | nil => exact hs
  | cons hpq _ ih =>
    cases cs with
    | nil => exact absurd hs (by simp [hasShape])
    | cons c cs =>
      simp only [hasShape, Bool.and_eq_true] at hs ⊢
      exact ⟨hpq c hs.1, ih cs hs.2⟩

theorem lowerHex_anyHex (c : Char) (h : lowerHex c = true) : anyHex c = true := by
  simp only [lowerHex, anyHex, Bool.or_eq_true] at h ⊢
  tauto

theorem four_anyHex (c : Char) (h : decide (c = '4') = true) : anyHex c = true := by
  have : c = '4' := by simpa using h
  subst this
  decide

theorem variant_anyHex (c : Char)
    (h : decide (c ∈ ['8', '9', 'a', 'A', 'b', 'B']) = true) : anyHex c = true := by
  simp only [List.mem_cons, List.mem_singleton, List.not_mem_nil, or_false,
    decide_eq_true_eq] at h
  rcases h with rfl | rfl | rfl | rfl | rfl | rfl <;> decide

theorem specUUID_wellFormed (s : String) (h : specUUID s = true) : specAnyUUID s = true := by
  refine hasShape_mono uuidShape _ ?_ s.data h
  simp only [uuidShape, List.replicate_succ, List.replicate_zero, List.cons_append,
    List.nil_append, List.append_assoc]
  repeat first
    | exact List.Forall₂.nil
    | refine List.Forall₂.cons ?_ ?_
    | exact lowerHex_anyHex
    | exact four_anyHex
    | exact variant_anyHex
    | exact fun _ hc => hc

/-! ## The claims -/

section Claims

variable {Logger Tracer Context : Type}

/-- C1: `ValidateMessageReceive` returns the empty mapping exactly when `to` and `from` both
have the E.164 form and the length of `content` (Go `len`, in bytes) is between 1 and 500. -/
theorem validateMessageReceive_empty_iff (v : MessageHandlerValidator Logger Tracer)
    (ctx : Context) (r : MessageReceive) :
    ValidateMessageReceive v ctx r = some [] ↔
      specE164 r.To = true ∧ specE164 r.From = true ∧
        1 ≤ goLen r.Content ∧ goLen r.Content ≤ 500 := by
  rw [ValidateMessageReceive_eq, Option.some.injEq, receiveBag, addAll_eq_nil, addAll_eq_nil,
    addAll_eq_nil, phoneErrs_eq_nil, phoneErrs_eq_nil, contentErrs_eq_nil]
  tauto

/-- C2: under the phone-number rule a value passes exactly when it is `+`, one digit 1-9 and
then 1 to 14 further decimal digits, whatever the field and its custom message; so do the
`to` and the `from` of `ValidateMessageReceive`; `+14155552671` passes, and `14155552671`,
`+0123` and `+1234567890123456` fail. -/
theorem phoneNumberRule_accepts_iff (v : MessageHandlerValidator Logger Tracer)
    (ctx : Context) :
    (∀ field message s : String,
      ruleRegex field phoneNumberRule message (some s) = some none ↔ specE164 s = true) ∧
    (∀ r : MessageReceive,
      (NoErrorUnder (ValidateMessageReceive v ctx r) "to" ↔ specE164 r.To = true) ∧
      (NoErrorUnder (ValidateMessageReceive v ctx r) "from" ↔ specE164 r.From = true)) ∧
    ruleRegex "to" phoneNumberRule "" (some "+14155552671") = some none ∧
    ruleRegex "to" phoneNumberRule "" (some "14155552671") =
      some (some "The to field format is invalid") ∧
    ruleRegex "to" phoneNumberRule "" (some "+0123") =
      some (some "The to field format is invalid") ∧
    ruleRegex "to" phoneNumberRule "" (some "+1234567890123456") =
      some (some "The to field format is invalid") := by
  refine ⟨?_, ?_, by decide, by decide, by decide, by decide⟩
  · intro field message s
    rw [ruleRegex_phone, ← phone_match_iff]
    cases matchAtoms phonePattern s.data <;> simp
  · intro r
    rw [ValidateMessageReceive_eq, noErrorUnder_some, noErrorUnder_some, receiveBag_get_to,
      receiveBag_get_from, phoneErrs_eq_nil, phoneErrs_eq_nil]
    exact ⟨Iff.rfl, Iff.rfl⟩

/-- C3: what the code does with `limit`.  The rules `min:1` and `max:20` are applied to a
string, so they bound the length of the text and not the number it spells: `limit` gets no
error exactly when it is a decimal integer text of 1 to 20 bytes.  The values `0` and `21`
therefore get no error, in `ValidateMessageOutstanding` and in `ValidateMessageIndex`; `1`
and `20` get none either, and `abc` gets one. -/
theorem limit_rules_bound_the_text (v : MessageHandlerValidator Logger Tracer) (ctx : Context) :
    (∀ r : MessageOutstanding, NoErrorUnder (ValidateMessageOutstanding v ctx r) "limit" ↔
      specNumeric r.Limit = true ∧ 1 ≤ goLen r.Limit ∧ goLen r.Limit ≤ 20) ∧
    (∀ r : MessageIndex, NoErrorUnder (ValidateMessageIndex v ctx r) "limit" ↔
      specNumeric r.Limit = true ∧ 1 ≤ goLen r.Limit ∧ goLen r.Limit ≤ 20) ∧
    ValidateMessageOutstanding v ctx { Limit := "0" } = some [] ∧
    ValidateMessageOutstanding v ctx { Limit := "21" } = some [] ∧
    ValidateMessageOutstanding v ctx { Limit := "1" } = some [] ∧
    ValidateMessageOutstanding v ctx { Limit := "20" } = some [] ∧
    ErrorUnder (ValidateMessageOutstanding v ctx { Limit := "abc" }) "limit" ∧
    (∀ k f t q, NoErrorUnder (ValidateMessageIndex v ctx
      { Skip := k, From := f, To := t, Query := q, Limit := "0" }) "limit") ∧
    (∀ k f t q, NoErrorUnder (ValidateMessageIndex v ctx
      { Skip := k, From := f, To := t, Query := q, Limit := "21" }) "limit") := by
  refine ⟨?_, ?_, ?_, ?_, ?_, ?_, ?_, ?_, ?_⟩
  · intro r
    rw [ValidateMessageOutstanding_eq, noErrorUnder_some, outstandingBag_get_limit,
      limitErrs_eq_nil]
  · intro r
    rw [ValidateMessageIndex_eq, noErrorUnder_some, indexBag_get_limit, limitErrs_eq_nil]
  · rw [ValidateMessageOutstanding_eq]; decide
  · rw [ValidateMessageOutstanding_eq]; decide
  · rw [ValidateMessageOutstanding_eq]; decide
  · rw [ValidateMessageOutstanding_eq]; decide
  · rw [ValidateMessageOutstanding_eq, errorUnder_some, outstandingBag_get_limit]
    exact (by decide : limitErrs "abc" ≠ [])
  · intro k f t q
    exact ⟨_, ValidateMessageIndex_eq v ctx _, by
      rw [indexBag_get_limit]; exact (by decide : limitErrs "0" = [])⟩
  · intro k f t q
    exact ⟨_, ValidateMessageIndex_eq v ctx _, by
      rw [indexBag_get_limit]; exact (by decide : limitErrs "21" = [])⟩

/-- C4: what the code does with `skip`.  `min:0` bounds the length of the text, which is
never negative, so `skip` gets no error exactly when it is a decimal integer text: the
negative value `-1` gets no error, and neither does `0`. -/
theorem skip_rules_accept_negative (v : MessageHandlerValidator Logger Tracer)
    (ctx : Context) :
    (∀ r : MessageIndex, NoErrorUnder (ValidateMessageIndex v ctx r) "skip" ↔
      specNumeric r.Skip = true) ∧
    (∀ f t q l, NoErrorUnder (ValidateMessageIndex v ctx
      { Skip := "-1", From := f, To := t, Query := q, Limit := l }) "skip") ∧
    (∀ f t q l, NoErrorUnder (ValidateMessageIndex v ctx
      { Skip := "0", From := f, To := t, Query := q, Limit := l }) "skip") := by
  refine ⟨?_, ?_, ?_⟩
  · intro r
    rw [ValidateMessageIndex_eq, noErrorUnder_some, indexBag_get_skip, skipErrs_eq_nil]
  · intro f t q l
    exact ⟨_, ValidateMessageIndex_eq v ctx _, by
      rw [indexBag_get_skip]; exact (by decide : skipErrs "-1" = [])⟩
  · intro f t q l
    exact ⟨_, ValidateMessageIndex_eq v ctx _, by
      rw [indexBag_get_skip]; exact (by decide : skipErrs "0" = [])⟩

/-- C5, counterexample: a `content` of 500 characters `é`, two bytes each, is rejected by
`max:500`. -/
theorem content_500_characters_rejected :
    (String.mk (List.replicate 500 'é')).length = 500 ∧
    ValidateMessageReceive plainValidator ()
        { From := "+14155552671", To := "+14155552671",
          Content := String.mk (List.replicate 500 'é') } =
      some [("content", ["The content field must be maximum 500 char"])] := by
  refine ⟨List.length_replicate _ _, ?_⟩
  have hc : contentErrs (String.mk (List.replicate 500 'é')) =
      ["The content field must be maximum 500 char"] := by
    simp only [contentErrs, requiredErrs, minErrs, maxErrs, errIf, goLen_replicate,
      (by decide : Char.utf8Size 'é' = 2)]
    decide
  have hp : ∀ field text, phoneErrs field text "+14155552671" = [] := by
    intro field text
    rw [phoneErrs_eq_nil]
    decide
  rw [ValidateMessageReceive_eq, receiveBag, hc, hp, hp]
  rfl

/-- C5, as amended: in `ValidateMessageReceive` and `ValidateMessageSend` the `content`
field gets no error exactly when its length in bytes (Go `len` of the UTF-8 text) is between
1 and 500, and an error otherwise.  In characters: the empty string has 0 bytes, a string of
501 or more characters has more than 500 bytes, a string of one character has 1 to 4 bytes,
and a string of 500 ASCII characters has 500 bytes. -/
theorem content_length_is_in_bytes (v : MessageHandlerValidator Logger Tracer)
    (ctx : Context) :
    (∀ r : MessageReceive,
      (NoErrorUnder (ValidateMessageReceive v ctx r) "content" ↔
        1 ≤ goLen r.Content ∧ goLen r.Content ≤ 500) ∧
      (ErrorUnder (ValidateMessageReceive v ctx r) "content" ↔
        ¬ (1 ≤ goLen r.Content ∧ goLen r.Content ≤ 500))) ∧
    (∀ r : MessageSend,
      (NoErrorUnder (ValidateMessageSend v ctx r) "content" ↔
        1 ≤ goLen r.Content ∧ goLen r.Content ≤ 500) ∧
      (ErrorUnder (ValidateMessageSend v ctx r) "content" ↔
        ¬ (1 ≤ goLen r.Content ∧ goLen r.Content ≤ 500))) ∧
    goLen "" = 0 ∧
    (∀ s : String, 501 ≤ s.length → 500 < goLen s) ∧
    (∀ s : String, s.length = 1 → 1 ≤ goLen s ∧ goLen s ≤ 500) ∧
    (∀ s : String, s.length = 500 → (∀ c ∈ s.data, c.toNat < 128) → goLen s = 500) := by
  refine ⟨?_, ?_, rfl, ?_, ?_, ?_⟩
  · intro r
    rw [ValidateMessageReceive_eq, noErrorUnder_some, errorUnder_some, receiveBag_get_content,
      Ne, contentErrs_eq_nil]
    exact ⟨Iff.rfl, Iff.rfl⟩
  · intro r
    rw [ValidateMessageSend_eq, noErrorUnder_some, errorUnder_some, receiveBag_get_content,
      Ne, contentErrs_eq_nil]
    exact ⟨Iff.rfl, Iff.rfl⟩
  · intro s h
    have := length_le_goLen s
    omega
  · intro s h
    have h1 := length_le_goLen s
    have h2 := goLen_le s
    omega
  · intro s h hascii
    rw [goLen_ascii s hascii, h]

/-- C6: in each of the five profiles, a field that carries `required` and holds the empty
string gets at least one message under its name, whatever the other fields hold. -/
theorem empty_required_field_is_reported (v : MessageHandlerValidator Logger Tracer)
    (ctx : Context) :
    (∀ f c, ErrorUnder (ValidateMessageReceive v ctx { From := f, To := "", Content := c }) "to") ∧
    (∀ t c, ErrorUnder (ValidateMessageReceive v ctx { From := "", To := t, Content := c }) "from") ∧
    (∀ f t, ErrorUnder (ValidateMessageReceive v ctx { From := f, To := t, Content := "" })
      "content") ∧
    (∀ f c, ErrorUnder (ValidateMessageSend v ctx { From := f, To := "", Content := c }) "to") ∧
    (∀ t c, ErrorUnder (ValidateMessageSend v ctx { From := "", To := t, Content := c }) "from") ∧
    (∀ f t, ErrorUnder (ValidateMessageSend v ctx { From := f, To := t, Content := "" })
      "content") ∧
    ErrorUnder (ValidateMessageOutstanding v ctx { Limit := "" }) "limit" ∧
    (∀ s f t q, ErrorUnder (ValidateMessageIndex v ctx
      { Skip := s, From := f, To := t, Query := q, Limit := "" }) "limit") ∧
    (∀ f t q l, ErrorUnder (ValidateMessageIndex v ctx
      { Skip := "", From := f, To := t, Query := q, Limit := l }) "skip") ∧
    (∀ s t q l, ErrorUnder (ValidateMessageIndex v ctx
      { Skip := s, From := "", To := t, Query := q, Limit := l }) "from") ∧
    (∀ s f q l, ErrorUnder (ValidateMessageIndex v ctx
      { Skip := s, From := f, To := "", Query := q, Limit := l }) "to") ∧
    (∀ m, ErrorUnder (ValidateMessageEvent v ctx { EventName := "", MessageID := m })
      "event_name") ∧
    (∀ e, ErrorUnder (ValidateMessageEvent v ctx { EventName := e, MessageID := "" })
      "messageID") := by
  refine ⟨?_, ?_, ?_, ?_, ?_, ?_, ?_, ?_, ?_, ?_, ?_, ?_, ?_⟩
  · intro f c
    rw [ValidateMessageReceive_eq, errorUnder_some, receiveBag_get_to]
    exact (by decide : phoneErrs "to" receiveToText "" ≠ [])
  · intro t c
    rw [ValidateMessageReceive_eq, errorUnder_some, receiveBag_get_from]
    exact (by decide : phoneErrs "from" receiveFromText "" ≠ [])
  · intro f t
    rw [ValidateMessageReceive_eq, errorUnder_some, receiveBag_get_content]
    exact (by decide : contentErrs "" ≠ [])
  · intro f c
    rw [ValidateMessageSend_eq, errorUnder_some, receiveBag_get_to]
    exact (by decide : phoneErrs "to" receiveToText "" ≠ [])
  · intro t c
    rw [ValidateMessageSend_eq, errorUnder_some, receiveBag_get_from]
    exact (by decide : phoneErrs "from" receiveFromText "" ≠ [])
  · intro f t
    rw [ValidateMessageSend_eq, errorUnder_some, receiveBag_get_content]
    exact (by decide : contentErrs "" ≠ [])
  · rw [ValidateMessageOutstanding_eq, errorUnder_some, outstandingBag_get_limit]
    exact (by decide : limitErrs "" ≠ [])
  · intro s f t q
    rw [ValidateMessageIndex_eq, errorUnder_some, indexBag_get_limit]
    exact (by decide : limitErrs "" ≠ [])
  · intro f t q l
    rw [ValidateMessageIndex_eq, errorUnder_some, indexBag_get_skip]
    exact (by decide : skipErrs "" ≠ [])
  · intro s t q l
    rw [ValidateMessageIndex_eq, errorUnder_some, indexBag_get_from]
    exact (by decide : indexFromErrs "" ≠ [])
  · intro s f q l
    rw [ValidateMessageIndex_eq, errorUnder_some, indexBag_get_to]
    exact (by decide : phoneErrs "to" indexToText "" ≠ [])
  · intro m
    rw [ValidateMessageEvent_eq, errorUnder_some, eventBag_get_event_name]
    exact (by decide : eventNameErrs "" ≠ [])
  · intro e
    rw [ValidateMessageEvent_eq, errorUnder_some, eventBag_get_messageID]
    exact (by decide : messageIDErrs "" ≠ [])

/-- C7, counterexample: an empty `to` in `ValidateMessageReceive` gets two messages, the
required one and the E.164 one. -/
theorem empty_to_gets_two_messages :
    ValidateMessageReceive plainValidator ()
        { From := "+14155552671", To := "", Content := "hi" } =
      some [("to", ["The to field is required",
        " The 'to' field must be a valid E.164 phone number: https://en.wikipedia.org/wiki/E.164"])] := by
  decide

/-- C7, as amended: every rule of a field is run, also when the field is empty.  An empty
field that carries `required` gets the required message first and then the message of each
later rule that the empty string fails: the E.164 message for `to` and `from` (a custom
text in `ValidateMessageReceive` and `ValidateMessageSend` and for the `to` of
`ValidateMessageIndex`), the minimum-length message for `content` and for the `from` of
`ValidateMessageIndex`, the numeric and the minimum-length message for `limit`, the numeric
message for `skip`, the list message for `event_name` and the UUID message for
`messageID`. -/
theorem empty_field_gets_every_failing_rule (v : MessageHandlerValidator Logger Tracer)
    (ctx : Context) :
    (∀ f c, ErrorsUnder (ValidateMessageReceive v ctx { From := f, To := "", Content := c })
      "to" ["The to field is required", receiveToText]) ∧
    (∀ t c, ErrorsUnder (ValidateMessageReceive v ctx { From := "", To := t, Content := c })
      "from" ["The from field is required", receiveFromText]) ∧
    (∀ f t, ErrorsUnder (ValidateMessageReceive v ctx { From := f, To := t, Content := "" })
      "content" ["The content field is required", "The content field must be minimum 1 char"]) ∧
    (∀ f c, ErrorsUnder (ValidateMessageSend v ctx { From := f, To := "", Content := c })
      "to" ["The to field is required", receiveToText]) ∧
    (∀ t c, ErrorsUnder (ValidateMessageSend v ctx { From := "", To := t, Content := c })
      "from" ["The from field is required", receiveFromText]) ∧
    (∀ f t, ErrorsUnder (ValidateMessageSend v ctx { From := f, To := t, Content := "" })
      "content" ["The content field is required", "The content field must be minimum 1 char"]) ∧
    ErrorsUnder (ValidateMessageOutstanding v ctx { Limit := "" }) "limit"
      ["The limit field is required", "The limit field must be numeric",
        "The limit field must be minimum 1 char"] ∧
    (∀ s f t q, ErrorsUnder (ValidateMessageIndex v ctx
      { Skip := s, From := f, To := t, Query := q, Limit := "" }) "limit"
      ["The limit field is required", "The limit field must be numeric",
        "The limit field must be minimum 1 char"]) ∧
    (∀ f t q l, ErrorsUnder (ValidateMessageIndex v ctx
      { Skip := "", From := f, To := t, Query := q, Limit := l }) "skip"
      ["The skip field is required", "The skip field must be numeric"]) ∧
    (∀ s t q l, ErrorsUnder (ValidateMessageIndex v ctx
      { Skip := s, From := "", To := t, Query := q, Limit := l }) "from"
      ["The from field is required", "The from field must be minimum 1 char"]) ∧
    (∀ s f q l, ErrorsUnder (ValidateMessageIndex v ctx
      { Skip := s, From := f, To := "", Query := q, Limit := l }) "to"
      ["The to field is required", indexToText]) ∧
    (∀ m, ErrorsUnder (ValidateMessageEvent v ctx { EventName := "", MessageID := m })
      "event_name" ["The event_name field is required",
        "The event_name field must be one of sent, failed, delivered"]) ∧
    (∀ e, ErrorsUnder (ValidateMessageEvent v ctx { EventName := e, MessageID := "" })
      "messageID" ["The messageID field is required",
        "The messageID field must contain valid UUID"]) := by
  refine ⟨?_, ?_, ?_, ?_, ?_, ?_, ?_, ?_, ?_, ?_, ?_, ?_, ?_⟩
  · intro f c
    rw [ValidateMessageReceive_eq, errorsUnder_some, receiveBag_get_to]
    show phoneErrs "to" receiveToText "" = _
    decide
  · intro t c
    rw [ValidateMessageReceive_eq, errorsUnder_some, receiveBag_get_from]
    show phoneErrs "from" receiveFromText "" = _
    decide
  · intro f t
    rw [ValidateMessageReceive_eq, errorsUnder_some, receiveBag_get_content]
    show contentErrs "" = _
    decide
  · intro f c
    rw [ValidateMessageSend_eq, errorsUnder_some, receiveBag_get_to]
    show phoneErrs "to" receiveToText "" = _
    decide
  · intro t c
    rw [ValidateMessageSend_eq, errorsUnder_some, receiveBag_get_from]
    show phoneErrs "from" receiveFromText "" = _
    decide
  · intro f t
    rw [ValidateMessageSend_eq, errorsUnder_some, receiveBag_get_content]
    show contentErrs "" = _
    decide
  · rw [ValidateMessageOutstanding_eq, errorsUnder_some, outstandingBag_get_limit]
    show limitErrs "" = _
    decide
  · intro s f t q
    rw [ValidateMessageIndex_eq, errorsUnder_some, indexBag_get_limit]
    show limitErrs "" = _
    decide
  · intro f t q l
    rw [ValidateMessageIndex_eq, errorsUnder_some, indexBag_get_skip]
    show skipErrs "" = _
    decide
  · intro s t q l
    rw [ValidateMessageIndex_eq, errorsUnder_some, indexBag_get_from]
    show indexFromErrs "" = _
    decide
  · intro s f q l
    rw [ValidateMessageIndex_eq, errorsUnder_some, indexBag_get_to]
    show phoneErrs "to" indexToText "" = _
    decide
  · intro m
    rw [ValidateMessageEvent_eq, errorsUnder_some, eventBag_get_event_name]
    show eventNameErrs "" = _
    decide
  · intro e
    rw [ValidateMessageEvent_eq, errorsUnder_some, eventBag_get_messageID]
    show messageIDErrs "" = _
    decide

/-- C8: in `ValidateMessageEvent` the `event_name` field gets no error exactly when it is
one of `sent`, `failed`, `delivered`, character for character; `sent`, `failed` and
`delivered` pass, `queued` and `Sent` get an error. -/
theorem event_name_accepted_iff (v : MessageHandlerValidator Logger Tracer) (ctx : Context) :
    (∀ r : MessageEvent, NoErrorUnder (ValidateMessageEvent v ctx r) "event_name" ↔
      r.EventName = MessageEventNameSent ∨ r.EventName = MessageEventNameFailed ∨
        r.EventName = MessageEventNameDelivered) ∧
    (∀ m, NoErrorUnder (ValidateMessageEvent v ctx { EventName := "sent", MessageID := m })
      "event_name") ∧
    (∀ m, NoErrorUnder (ValidateMessageEvent v ctx { EventName := "failed", MessageID := m })
      "event_name") ∧
    (∀ m, NoErrorUnder (ValidateMessageEvent v ctx { EventName := "delivered", MessageID := m })
      "event_name") ∧
    (∀ m, ErrorUnder (ValidateMessageEvent v ctx { EventName := "queued", MessageID := m })
      "event_name") ∧
    (∀ m, ErrorUnder (ValidateMessageEvent v ctx { EventName := "Sent", MessageID := m })
      "event_name") := by
  refine ⟨?_, ?_, ?_, ?_, ?_, ?_⟩
  · intro r
    rw [ValidateMessageEvent_eq, noErrorUnder_some, eventBag_get_event_name,
      eventNameErrs_eq_nil]
    exact Iff.rfl
  · intro m
    rw [ValidateMessageEvent_eq, noErrorUnder_some, eventBag_get_event_name]
    exact (by decide : eventNameErrs "sent" = [])
  · intro m
    rw [ValidateMessageEvent_eq, noErrorUnder_some, eventBag_get_event_name]
    exact (by decide : eventNameErrs "failed" = [])
  · intro m
    rw [ValidateMessageEvent_eq, noErrorUnder_some, eventBag_get_event_name]
    exact (by decide : eventNameErrs "delivered" = [])
  · intro m
    rw [ValidateMessageEvent_eq, errorUnder_some, eventBag_get_event_name]
    exact (by decide : eventNameErrs "queued" ≠ [])
  · intro m
    rw [ValidateMessageEvent_eq, errorUnder_some, eventBag_get_event_name]
    exact (by decide : eventNameErrs "Sent" ≠ [])

/-- C9, counterexample: `123e4567-e89b-12d3-a456-426614174000` is a well-formed UUID (of
version 1), and `ValidateMessageEvent` reports it under `messageID`. -/
theorem version1_uuid_is_rejected :
    specAnyUUID "123e4567-e89b-12d3-a456-426614174000" = true ∧
    ValidateMessageEvent plainValidator ()
        { EventName := "sent", MessageID := "123e4567-e89b-12d3-a456-426614174000" } =
      some [("messageID", ["The messageID field must contain valid UUID"])] := by
  decide

/-- C9, as amended: in `ValidateMessageEvent` the `messageID` field gets no error exactly
when it has the shape of the library's `UUID` pattern: 8-4-4-4-12 lowercase hexadecimal
digits with the version digit `4` and one of `8 9 a A b B` at the head of the fourth group.
Every such text is a well-formed UUID.  `not-a-uuid` gets an error, and so do a well-formed
UUID written in capitals and a text with `|` at the head of the fourth group. -/
theorem messageID_accepted_iff (v : MessageHandlerValidator Logger Tracer) (ctx : Context) :
    (∀ r : MessageEvent, NoErrorUnder (ValidateMessageEvent v ctx r) "messageID" ↔
      specUUID r.MessageID = true) ∧
    (∀ s : String, specUUID s = true → specAnyUUID s = true) ∧
    (∀ e, NoErrorUnder (ValidateMessageEvent v ctx
      { EventName := e, MessageID := "123e4567-e89b-42d3-a456-426614174000" }) "messageID") ∧
    (∀ e, ErrorUnder (ValidateMessageEvent v ctx { EventName := e, MessageID := "not-a-uuid" })
      "messageID") ∧
    (∀ e, ErrorUnder (ValidateMessageEvent v ctx
      { EventName := e, MessageID := "123E4567-E89B-42D3-A456-426614174000" }) "messageID") ∧
    (∀ e, ErrorUnder (ValidateMessageEvent v ctx
      { EventName := e, MessageID := "123e4567-e89b-42d3-|456-426614174000" }) "messageID") := by
  refine ⟨?_, specUUID_wellFormed, ?_, ?_, ?_, ?_⟩
  · intro r
    rw [ValidateMessageEvent_eq, noErrorUnder_some, eventBag_get_messageID,
      messageIDErrs_eq_nil]
  · intro e
    rw [ValidateMessageEvent_eq, noErrorUnder_some, eventBag_get_messageID]
    exact (by decide : messageIDErrs "123e4567-e89b-42d3-a456-426614174000" = [])
  · intro e
    rw [ValidateMessageEvent_eq, errorUnder_some, eventBag_get_messageID]
    exact (by decide : messageIDErrs "not-a-uuid" ≠ [])
  · intro e
    rw [ValidateMessageEvent_eq, errorUnder_some, eventBag_get_messageID]
    exact (by decide : messageIDErrs "123E4567-E89B-42D3-A456-426614174000" ≠ [])
  · intro e
    rw [ValidateMessageEvent_eq, errorUnder_some, eventBag_get_messageID]
    exact (by decide : messageIDErrs "123e4567-e89b-42d3-|456-426614174000" ≠ [])

/-- C10, counterexample: in `ValidateMessageIndex` the non-empty `from` value `abc` does not
have the E.164 form and the returned mapping is empty. -/
theorem index_from_is_not_pattern_checked :
    specE164 "abc" = false ∧
    ValidateMessageIndex plainValidator ()
        { Skip := "0", From := "abc", To := "+14155552671", Query := "", Limit := "1" } =
      some [] := by
  decide

/-- C10, as amended: the phone pattern is applied to the `to` and the `from` of
`ValidateMessageReceive` and `ValidateMessageSend` and to the `to` of
`ValidateMessageIndex`: there a value that does not have the E.164 form gets an error under
its field, whatever the other fields hold.  The `from` of `ValidateMessageIndex` carries
only `required` and `min:1`: it gets no error exactly when it is not empty. -/
theorem phone_pattern_where_applied (v : MessageHandlerValidator Logger Tracer)
    (ctx : Context) (s : String) (hbad : specE164 s = false) :
    (∀ f c, ErrorUnder (ValidateMessageReceive v ctx { From := f, To := s, Content := c }) "to") ∧
    (∀ t c, ErrorUnder (ValidateMessageReceive v ctx { From := s, To := t, Content := c })
      "from") ∧
    (∀ f c, ErrorUnder (ValidateMessageSend v ctx { From := f, To := s, Content := c }) "to") ∧
    (∀ t c, ErrorUnder (ValidateMessageSend v ctx { From := s, To := t, Content := c })
      "from") ∧
    (∀ k f q l, ErrorUnder (ValidateMessageIndex v ctx
      { Skip := k, From := f, To := s, Query := q, Limit := l }) "to") ∧
    (∀ r : MessageIndex, NoErrorUnder (ValidateMessageIndex v ctx r) "from" ↔ r.From ≠ "") := by
  refine ⟨?_, ?_, ?_, ?_, ?_, ?_⟩
  · intro f c
    rw [ValidateMessageReceive_eq, errorUnder_some, receiveBag_get_to]
    exact phoneErrs_ne_nil _ _ s hbad
  · intro t c
    rw [ValidateMessageReceive_eq, errorUnder_some, receiveBag_get_from]
    exact phoneErrs_ne_nil _ _ s hbad
  · intro f c
    rw [ValidateMessageSend_eq, errorUnder_some, receiveBag_get_to]
    exact phoneErrs_ne_nil _ _ s hbad
  · intro t c
    rw [ValidateMessageSend_eq, errorUnder_some, receiveBag_get_from]
    exact phoneErrs_ne_nil _ _ s hbad
  · intro k f q l
    rw [ValidateMessageIndex_eq, errorUnder_some, indexBag_get_to]
    exact phoneErrs_ne_nil _ _ s hbad
  · intro r
    rw [ValidateMessageIndex_eq, noErrorUnder_some, indexBag_get_from, indexFromErrs_eq_nil]

/-- C10, witness: the amended statement at the value `abc`. -/
theorem phone_pattern_where_applied_witness :
    specE164 "abc" = false ∧
    ErrorUnder (ValidateMessageIndex plainValidator ()
      { Skip := "0", From := "abc", To := "abc", Query := "", Limit := "1" }) "to" ∧
    ErrorUnder (ValidateMessageReceive plainValidator ()
      { From := "abc", To := "+14155552671", Content := "hi" }) "from" :=
  ⟨by decide,
    (phone_pattern_where_applied plainValidator () "abc" (by decide)).2.2.2.2.1 "0" "abc" "" "1",
    (phone_pattern_where_applied plainValidator () "abc" (by decide)).2.1 "+14155552671" "hi"⟩

/-- C11: what the code reports under `to` for a non-empty value that fails the phone
pattern.  `ValidateMessageReceive` and `ValidateMessageSend` report the text after `regex:`
of their custom message, which starts with a blank; `ValidateMessageIndex` reports the same
sentence without the blank.  The two texts differ in that one character. -/
theorem to_message_differs_by_a_blank (v : MessageHandlerValidator Logger Tracer)
    (ctx : Context) :
    (∀ f c s, s ≠ "" → specE164 s = false →
      ErrorsUnder (ValidateMessageReceive v ctx { From := f, To := s, Content := c }) "to"
        [" The 'to' field must be a valid E.164 phone number: https://en.wikipedia.org/wiki/E.164"]) ∧
    (∀ f c s, s ≠ "" → specE164 s = false →
      ErrorsUnder (ValidateMessageSend v ctx { From := f, To := s, Content := c }) "to"
        [" The 'to' field must be a valid E.164 phone number: https://en.wikipedia.org/wiki/E.164"]) ∧
    (∀ k f q l s, s ≠ "" → specE164 s = false →
      ErrorsUnder (ValidateMessageIndex v ctx
        { Skip := k, From := f, To := s, Query := q, Limit := l }) "to"
        ["The 'to' field must be a valid E.164 phone number: https://en.wikipedia.org/wiki/E.164"]) ∧
    ErrorsUnder (ValidateMessageReceive v ctx
      { From := "+14155552671", To := "abc", Content := "hi" }) "to"
      [" The 'to' field must be a valid E.164 phone number: https://en.wikipedia.org/wiki/E.164"] ∧
    ErrorsUnder (ValidateMessageIndex v ctx
      { Skip := "0", From := "+14155552671", To := "abc", Query := "", Limit := "1" }) "to"
      ["The 'to' field must be a valid E.164 phone number: https://en.wikipedia.org/wiki/E.164"] ∧
    receiveToText = " " ++ indexToText ∧ receiveToText ≠ indexToText := by
  refine ⟨?_, ?_, ?_, ?_, ?_, by decide, by decide⟩
  · intro f c s hne hbad
    rw [ValidateMessageReceive_eq, errorsUnder_some, receiveBag_get_to]
    exact phoneErrs_eq_text _ _ s hne hbad
  · intro f c s hne hbad
    rw [ValidateMessageSend_eq, errorsUnder_some, receiveBag_get_to]
    exact phoneErrs_eq_text _ _ s hne hbad
  · intro k f q l s hne hbad
    rw [ValidateMessageIndex_eq, errorsUnder_some, indexBag_get_to]
    exact phoneErrs_eq_text _ _ s hne hbad
  · rw [ValidateMessageReceive_eq, errorsUnder_some, receiveBag_get_to]
    exact phoneErrs_eq_text _ _ "abc" (by decide) (by decide)
  · rw [ValidateMessageIndex_eq, errorsUnder_some, indexBag_get_to]
    exact phoneErrs_eq_text _ _ "abc" (by decide) (by decide)

/-- C12: `ValidateMessageSend` and `ValidateMessageReceive` return the same mapping (the same
keys with the same messages in the same order) for the same `from`, `to` and `content`. -/
theorem validateMessageSend_eq_receive (v : MessageHandlerValidator Logger Tracer)
    (ctx : Context) (f t c : String) :
    ValidateMessageSend v ctx { From := f, To := t, Content := c } =
      ValidateMessageReceive v ctx { From := f, To := t, Content := c } := by
  rw [ValidateMessageSend_eq, ValidateMessageReceive_eq]

/-- C13: in `ValidateMessageIndex` the `query` field carries no `required` rule and gets no
error exactly when its length (Go `len`, in bytes) is at most 100; a longer `query` gets an
error, the empty `query` gets none. -/
theorem query_accepted_iff (v : MessageHandlerValidator Logger Tracer) (ctx : Context) :
    (∀ r : MessageIndex, NoErrorUnder (ValidateMessageIndex v ctx r) "query" ↔
      goLen r.Query ≤ 100) ∧
    (∀ r : MessageIndex, ErrorUnder (ValidateMessageIndex v ctx r) "query" ↔
      100 < goLen r.Query) ∧
    (∀ k f t l, NoErrorUnder (ValidateMessageIndex v ctx
      { Skip := k, From := f, To := t, Query := "", Limit := l }) "query") := by
  refine ⟨?_, ?_, ?_⟩
  · intro r
    rw [ValidateMessageIndex_eq, noErrorUnder_some, indexBag_get_query, queryErrs_eq_nil]
  · intro r
    rw [ValidateMessageIndex_eq, errorUnder_some, indexBag_get_query, Ne, queryErrs_eq_nil]
    omega
  · intro k f t l
    rw [ValidateMessageIndex_eq, noErrorUnder_some, indexBag_get_query]
    exact queryErrs_empty

/-- C14: none of the five validate functions panics: for every request each returns a
mapping.  Every rule of the five tables is a rule the engine knows, the parameters of the
`min` and `max` rules parse as integers, and the phone pattern and the two library patterns
compile. -/
theorem validation_never_panics (v : MessageHandlerValidator Logger Tracer) (ctx : Context) :
    (∀ r : MessageReceive, ∃ bag, ValidateMessageReceive v ctx r = some bag) ∧
    (∀ r : MessageSend, ∃ bag, ValidateMessageSend v ctx r = some bag) ∧
    (∀ r : MessageOutstanding, ∃ bag, ValidateMessageOutstanding v ctx r = some bag) ∧
    (∀ r : MessageIndex, ∃ bag, ValidateMessageIndex v ctx r = some bag) ∧
    (∀ r : MessageEvent, ∃ bag, ValidateMessageEvent v ctx r = some bag) ∧
    (∀ rule ∈ ["required", phoneNumberRule, "min:1", "max:500", "numeric", "max:20", "min:0",
        "max:100", "in:" ++ joinStr [MessageEventNameSent, MessageEventNameFailed,
          MessageEventNameDelivered] ",", "uuid"],
      isRuleExist rule = true) ∧
    atoi (trimPrefixStr "min:1" "min:") = some 1 ∧
    atoi (trimPrefixStr "min:0" "min:") = some 0 ∧
    atoi (trimPrefixStr "max:500" "max:") = some 500 ∧
    atoi (trimPrefixStr "max:20" "max:") = some 20 ∧
    atoi (trimPrefixStr "max:100" "max:") = some 100 ∧
    compileRegex (trimPrefixStr phoneNumberRule "regex:") = some phonePattern ∧
    compileRegex Numeric = some numericPattern ∧
    compileRegex UUID = some uuidPattern := by
  refine ⟨fun r => ⟨_, ValidateMessageReceive_eq v ctx r⟩,
    fun r => ⟨_, ValidateMessageSend_eq v ctx r⟩,
    fun r => ⟨_, ValidateMessageOutstanding_eq v ctx r⟩,
    fun r => ⟨_, ValidateMessageIndex_eq v ctx r⟩,
    fun r => ⟨_, ValidateMessageEvent_eq v ctx r⟩,
    by decide, by decide, by decide, by decide, by decide, by decide, by decide, by decide,
    by decide⟩

/-- C16: the mapping a validate function returns has its keys among the fields of its rule
table, has no key twice, and has a non-empty list of messages under every key. -/
theorem keys_are_fields_of_the_table (v : MessageHandlerValidator Logger Tracer)
    (ctx : Context) :
    (∀ r : MessageReceive, ∃ bag, ValidateMessageReceive v ctx r = some bag ∧
      (bag.map Prod.fst).Nodup ∧ ∀ p ∈ bag, p.1 ∈ ["to", "from", "content"] ∧ p.2 ≠ []) ∧
    (∀ r : MessageSend, ∃ bag, ValidateMessageSend v ctx r = some bag ∧
      (bag.map Prod.fst).Nodup ∧ ∀ p ∈ bag, p.1 ∈ ["to", "from", "content"] ∧ p.2 ≠ []) ∧
    (∀ r : MessageOutstanding, ∃ bag, ValidateMessageOutstanding v ctx r = some bag ∧
      (bag.map Prod.fst).Nodup ∧ ∀ p ∈ bag, p.1 ∈ ["limit"] ∧ p.2 ≠ []) ∧
    (∀ r : MessageIndex, ∃ bag, ValidateMessageIndex v ctx r = some bag ∧
      (bag.map Prod.fst).Nodup ∧
        ∀ p ∈ bag, p.1 ∈ ["limit", "skip", "from", "query", "to"] ∧ p.2 ≠ []) ∧
    (∀ r : MessageEvent, ∃ bag, ValidateMessageEvent v ctx r = some bag ∧
      (bag.map Prod.fst).Nodup ∧ ∀ p ∈ bag, p.1 ∈ ["event_name", "messageID"] ∧ p.2 ≠ []) := by
  refine ⟨?_, ?_, ?_, ?_, ?_⟩
  · intro r
    refine ⟨_, ValidateMessageReceive_eq v ctx r, ?_⟩
    exact addAll_wellKeyed _ _ _ _ (by decide) (addAll_wellKeyed _ _ _ _ (by decide)
      (addAll_wellKeyed _ _ _ _ (by decide) (nil_wellKeyed _)))
  · intro r
    refine ⟨_, ValidateMessageSend_eq v ctx r, ?_⟩
    exact addAll_wellKeyed _ _ _ _ (by decide) (addAll_wellKeyed _ _ _ _ (by decide)
      (addAll_wellKeyed _ _ _ _ (by decide) (nil_wellKeyed _)))
  · intro r
    refine ⟨_, ValidateMessageOutstanding_eq v ctx r, ?_⟩
    exact addAll_wellKeyed _ _ _ _ (by decide) (nil_wellKeyed _)
  · intro r
    refine ⟨_, ValidateMessageIndex_eq v ctx r, ?_⟩
    exact addAll_wellKeyed _ _ _ _ (by decide) (addAll_wellKeyed _ _ _ _ (by decide)
      (addAll_wellKeyed _ _ _ _ (by decide) (addAll_wellKeyed _ _ _ _ (by decide)
      (addAll_wellKeyed _ _ _ _ (by decide) (nil_wellKeyed _)))))
  · intro r
    refine ⟨_, ValidateMessageEvent_eq v ctx r, ?_⟩
    exact addAll_wellKeyed _ _ _ _ (by decide) (addAll_wellKeyed _ _ _ _ (by decide)
      (nil_wellKeyed _))

/-- C15: the five validate functions do not read the validator or the context: two calls on
the same request return the same mapping, whatever logger and tracer the two validators hold
and whatever contexts are passed.  Nor does the mapping depend on the order in which the
rule table, a Go map, is visited: run on any reordering of the table, the engine returns the
same messages under every key. -/
theorem validate_depends_on_request_only {Logger2 Tracer2 Context2 : Type}
    (v : MessageHandlerValidator Logger Tracer) (ctx : Context)
    (v2 : MessageHandlerValidator Logger2 Tracer2) (ctx2 : Context2) :
    (∀ r, ValidateMessageReceive v ctx r = ValidateMessageReceive v2 ctx2 r) ∧
    (∀ r, ValidateMessageSend v ctx r = ValidateMessageSend v2 ctx2 r) ∧
    (∀ r, ValidateMessageOutstanding v ctx r = ValidateMessageOutstanding v2 ctx2 r) ∧
    (∀ r, ValidateMessageIndex v ctx r = ValidateMessageIndex v2 ctx2 r) ∧
    (∀ r, ValidateMessageEvent v ctx r = ValidateMessageEvent v2 ctx2 r) ∧
    (∀ (r : MessageReceive) (table : MapData), table.Perm receiveRules →
      SameMapping
        (ValidateStruct { Data := r.flat, Rules := table, Messages := receiveMessages })
        (ValidateMessageReceive v ctx r)) ∧
    (∀ (r : MessageSend) (table : MapData), table.Perm receiveRules →
      SameMapping
        (ValidateStruct { Data := r.flat, Rules := table, Messages := receiveMessages })
        (ValidateMessageSend v ctx r)) ∧
    (∀ (r : MessageOutstanding) (table : MapData), table.Perm outstandingRules →
      SameMapping (ValidateStruct { Data := r.flat, Rules := table })
        (ValidateMessageOutstanding v ctx r)) ∧
    (∀ (r : MessageIndex) (table : MapData), table.Perm indexRules →
      SameMapping (ValidateStruct { Data := r.flat, Rules := table, Messages := indexMessages })
        (ValidateMessageIndex v ctx r)) ∧
    (∀ (r : MessageEvent) (table : MapData), table.Perm eventRules →
      SameMapping (ValidateStruct { Data := r.flat, Rules := table })
        (ValidateMessageEvent v ctx r)) := by
  refine ⟨fun _ => rfl, fun _ => rfl, fun _ => rfl, fun _ => rfl, fun _ => rfl,
    ?_, ?_, ?_, ?_, ?_⟩
  · intro r table hperm
    exact validateStruct_perm r.flat receiveMessages receiveRules table hperm (by decide)
  · intro r table hperm
    exact validateStruct_perm r.flat receiveMessages receiveRules table hperm (by decide)
  · intro r table hperm
    exact validateStruct_perm r.flat [] outstandingRules table hperm (by decide)
  · intro r table hperm
    exact validateStruct_perm r.flat indexMessages indexRules table hperm (by decide)
  · intro r table hperm
    exact validateStruct_perm r.flat [] eventRules table hperm (by decide)

/-- C15, at a concrete input: the table of `ValidateMessageReceive` visited in the order
`content`, `to`, `from` gives the same mapping on a request with three bad fields. -/
theorem validate_depends_on_request_only_witness :
    SameMapping
      (ValidateStruct {
        Data := MessageReceive.flat { From := "", To := "abc", Content := "" }
        Rules := [("content", ["required", "min:1", "max:500"]),
          ("to", ["required", phoneNumberRule]), ("from", ["required", phoneNumberRule])]
        Messages := receiveMessages })
      (ValidateMessageReceive plainValidator () { From := "", To := "abc", Content := "" }) :=
  (validate_depends_on_request_only plainValidator () plainValidator ()).2.2.2.2.2.1
    { From := "", To := "abc", Content := "" } _ (by decide)

/-- C17: in every profile the messages under a field are a function of that field's value:
two requests that agree on a field get the same list under it, whatever their other fields
hold. -/
theorem errors_depend_on_own_field (v : MessageHandlerValidator Logger Tracer)
    (ctx : Context) :
    (∀ r r2 : MessageReceive, r.To = r2.To → SameErrorsUnder
      (ValidateMessageReceive v ctx r) (ValidateMessageReceive v ctx r2) "to") ∧
    (∀ r r2 : MessageReceive, r.From = r2.From → SameErrorsUnder
      (ValidateMessageReceive v ctx r) (ValidateMessageReceive v ctx r2) "from") ∧
    (∀ r r2 : MessageReceive, r.Content = r2.Content → SameErrorsUnder
      (ValidateMessageReceive v ctx r) (ValidateMessageReceive v ctx r2) "content") ∧
    (∀ r r2 : MessageSend, r.To = r2.To → SameErrorsUnder
      (ValidateMessageSend v ctx r) (ValidateMessageSend v ctx r2) "to") ∧
    (∀ r r2 : MessageSend, r.From = r2.From → SameErrorsUnder
      (ValidateMessageSend v ctx r) (ValidateMessageSend v ctx r2) "from") ∧
    (∀ r r2 : MessageSend, r.Content = r2.Content → SameErrorsUnder
      (ValidateMessageSend v ctx r) (ValidateMessageSend v ctx r2) "content") ∧
    (∀ r r2 : MessageOutstanding, r.Limit = r2.Limit → SameErrorsUnder
      (ValidateMessageOutstanding v ctx r) (ValidateMessageOutstanding v ctx r2) "limit") ∧
    (∀ r r2 : MessageIndex, r.Limit = r2.Limit → SameErrorsUnder
      (ValidateMessageIndex v ctx r) (ValidateMessageIndex v ctx r2) "limit") ∧
    (∀ r r2 : MessageIndex, r.Skip = r2.Skip → SameErrorsUnder
      (ValidateMessageIndex v ctx r) (ValidateMessageIndex v ctx r2) "skip") ∧
    (∀ r r2 : MessageIndex, r.From = r2.From → SameErrorsUnder
      (ValidateMessageIndex v ctx r) (ValidateMessageIndex v ctx r2) "from") ∧
    (∀ r r2 : MessageIndex, r.Query = r2.Query → SameErrorsUnder
      (ValidateMessageIndex v ctx r) (ValidateMessageIndex v ctx r2) "query") ∧
    (∀ r r2 : MessageIndex, r.To = r2.To → SameErrorsUnder
      (ValidateMessageIndex v ctx r) (ValidateMessageIndex v ctx r2) "to") ∧
    (∀ r r2 : MessageEvent, r.EventName = r2.EventName → SameErrorsUnder
      (ValidateMessageEvent v ctx r) (ValidateMessageEvent v ctx r2) "event_name") ∧
    (∀ r r2 : MessageEvent, r.MessageID = r2.MessageID → SameErrorsUnder
      (ValidateMessageEvent v ctx r) (ValidateMessageEvent v ctx r2) "messageID") := by
  refine ⟨?_, ?_, ?_, ?_, ?_, ?_, ?_, ?_, ?_, ?_, ?_, ?_, ?_, ?_⟩
  · intro r r2 h
    exact ⟨_, _, ValidateMessageReceive_eq v ctx r, ValidateMessageReceive_eq v ctx r2, by
      rw [receiveBag_get_to, receiveBag_get_to, h]⟩
  · intro r r2 h
    exact ⟨_, _, ValidateMessageReceive_eq v ctx r, ValidateMessageReceive_eq v ctx r2, by
      rw [receiveBag_get_from, receiveBag_get_from, h]⟩
  · intro r r2 h
    exact ⟨_, _, ValidateMessageReceive_eq v ctx r, ValidateMessageReceive_eq v ctx r2, by
      rw [receiveBag_get_content, receiveBag_get_content, h]⟩
  · intro r r2 h
    exact ⟨_, _, ValidateMessageSend_eq v ctx r, ValidateMessageSend_eq v ctx r2, by
      rw [receiveBag_get_to, receiveBag_get_to, h]⟩
  · intro r r2 h
    exact ⟨_, _, ValidateMessageSend_eq v ctx r, ValidateMessageSend_eq v ctx r2, by
      rw [receiveBag_get_from, receiveBag_get_from, h]⟩
  · intro r r2 h
    exact ⟨_, _, ValidateMessageSend_eq v ctx r, ValidateMessageSend_eq v ctx r2, by
      rw [receiveBag_get_content, receiveBag_get_content, h]⟩
  · intro r r2 h
    exact ⟨_, _, ValidateMessageOutstanding_eq v ctx r, ValidateMessageOutstanding_eq v ctx r2,
      by rw [outstandingBag_get_limit, outstandingBag_get_limit, h]⟩
  · intro r r2 h
    exact ⟨_, _, ValidateMessageIndex_eq v ctx r, ValidateMessageIndex_eq v ctx r2, by
      rw [indexBag_get_limit, indexBag_get_limit, h]⟩
  · intro r r2 h
    exact ⟨_, _, ValidateMessageIndex_eq v ctx r, ValidateMessageIndex_eq v ctx r2, by
      rw [indexBag_get_skip, indexBag_get_skip, h]⟩
  · intro r r2 h
    exact ⟨_, _, ValidateMessageIndex_eq v ctx r, ValidateMessageIndex_eq v ctx r2, by
      rw [indexBag_get_from, indexBag_get_from, h]⟩
  · intro r r2 h
    exact ⟨_, _, ValidateMessageIndex_eq v ctx r, ValidateMessageIndex_eq v ctx r2, by
      rw [indexBag_get_query, indexBag_get_query, h]⟩
  · intro r r2 h
    exact ⟨_, _, ValidateMessageIndex_eq v ctx r, ValidateMessageIndex_eq v ctx r2, by
      rw [indexBag_get_to, indexBag_get_to, h]⟩
  · intro r r2 h
    exact ⟨_, _, ValidateMessageEvent_eq v ctx r, ValidateMessageEvent_eq v ctx r2, by
      rw [eventBag_get_event_name, eventBag_get_event_name, h]⟩
  · intro r r2 h
    exact ⟨_, _, ValidateMessageEvent_eq v ctx r, ValidateMessageEvent_eq v ctx r2, by
      rw [eventBag_get_messageID, eventBag_get_messageID, h]⟩

/-- C17, at a concrete input: two `ValidateMessageIndex` requests with the same bad `to` and
different other fields get the same messages under `to`. -/
theorem errors_depend_on_own_field_witness :
    SameErrorsUnder
      (ValidateMessageIndex plainValidator ()
        { Skip := "0", From := "abc", To := "12", Query := "", Limit := "1" })
      (ValidateMessageIndex plainValidator ()
        { Skip := "", From := "", To := "12", Query := "q", Limit := "99" }) "to" :=
  (errors_depend_on_own_field plainValidator ()).2.2.2.2.2.2.2.2.2.2.2.1
    { Skip := "0", From := "abc", To := "12", Query := "", Limit := "1" }
    { Skip := "", From := "", To := "12", Query := "q", Limit := "99" } rfl

end Claims

end Validators
